import Mathlib

/-!
# Verification of the GoodByeDPI packet-transformation core

A shallow embedding, in Lean 4, of the packet model and bypass strategies of
the GoodByeDPI-Turkey Rust engine, together with theorems settling the
specification claims about it.

Conventions of the embedding:
* Raw packet buffers (`Vec<u8>` / `BytesMut`) are `List Nat`; a byte read
  `data[i]` is `getB data i` (out-of-range reads, which panic in Rust, are
  only performed under the length hypotheses that make them in range).
* Machine integers are `Nat` with explicit `% 2^32` / `% 2^16` / `% 256`
  where the Rust code wraps or truncates; `u8::saturating_sub` coincides
  with `Nat` subtraction.
* Fallible Rust functions (`Result`, `unwrap`) become `Option`.
* The concurrent `DashMap` tables are association lists whose insert
  replaces the key's previous binding; entry timestamps and expiry, which
  depend on real time, are not modelled (no settled claim needs them).
-/

set_option linter.unusedVariables false

/-- Read byte `i` of a buffer, defaulting to 0 out of range. -/
def getB (l : List Nat) (i : Nat) : Nat := l.getD i 0

/-- Big-endian 16-bit read at offset `i` (`u16::from_be_bytes`). -/
def be16 (l : List Nat) (i : Nat) : Nat := 256 * getB l i + getB l (i + 1)

/-- Big-endian 32-bit read at offset `i` (`u32::from_be_bytes`). -/
def be32 (l : List Nat) (i : Nat) : Nat :=
  2 ^ 24 * getB l i + 2 ^ 16 * getB l (i + 1) + 2 ^ 8 * getB l (i + 2) + getB l (i + 3)

/-- Write the 4 big-endian bytes of `v` (a `u32`, i.e. `v`'s low 32 bits)
at offsets `i`..`i+3` (`copy_from_slice(&v.to_be_bytes())`). -/
def writeBE32 (l : List Nat) (i v : Nat) : List Nat :=
  ((((l.set i (v / 2 ^ 24 % 256)).set (i + 1) (v / 2 ^ 16 % 256)).set
      (i + 2) (v / 2 ^ 8 % 256)).set (i + 3) (v % 256))

/-- `u32` wrapping subtraction `a.wrapping_sub(b)` for `a < 2^32`, `b ≤ 2^32`. -/
def wrapSub32 (a b : Nat) : Nat := (a + (2 ^ 32 - b % 2 ^ 32)) % 2 ^ 32

/-- Packet direction (WinDivert inject direction). -/
inductive Direction
  | Outbound
  | Inbound
deriving DecidableEq, Repr

/-- IP version of a parsed packet. -/
inductive IpVersion
  | V4
  | V6
deriving DecidableEq, Repr

/-- Transport protocol, from the IPv4 protocol / IPv6 next-header byte. -/
inductive Protocol
  | Tcp
  | Udp
  | Icmp
  | Icmpv6
  | Unknown
deriving DecidableEq, Repr

/-- `Protocol::from_u8`. -/
def Protocol.fromU8 (proto : Nat) : Protocol :=
  if proto = 1 then .Icmp
  else if proto = 6 then .Tcp
  else if proto = 17 then .Udp
  else if proto = 58 then .Icmpv6
  else .Unknown

/-- The eight TCP flag bits. -/
structure TcpFlags where
  fin : Bool
  syn : Bool
  rst : Bool
  psh : Bool
  ack : Bool
  urg : Bool
  ece : Bool
  cwr : Bool
deriving DecidableEq, Repr

/-- `TcpFlags::from_byte`. -/
def TcpFlags.fromByte (byte : Nat) : TcpFlags where
  fin := byte / 1 % 2 = 1
  syn := byte / 2 % 2 = 1
  rst := byte / 4 % 2 = 1
  psh := byte / 8 % 2 = 1
  ack := byte / 16 % 2 = 1
  urg := byte / 32 % 2 = 1
  ece := byte / 64 % 2 = 1
  cwr := byte / 128 % 2 = 1

/-- `std::net::IpAddr`: a v4 address as its four octets, or a v6 address as
its sixteen bytes. -/
inductive IpAddress
  | v4 (o0 o1 o2 o3 : Nat)
  | v6 (bytes : List Nat)
deriving DecidableEq, Repr

/-- The parsed packet: raw buffer plus the metadata fields the Rust
`Packet` struct caches at parse time.  `isFake` is the decoy marker the
old-tree `Packet` carries and the v2 fragmentation strategy reads;
`Packet::from_bytes` leaves it `false`. -/
structure Packet where
  data : List Nat
  direction : Direction
  ipVersion : IpVersion
  protocol : Protocol
  srcAddr : IpAddress
  dstAddr : IpAddress
  srcPort : Nat
  dstPort : Nat
  ipHeaderLen : Nat
  transportHeaderLen : Nat
  tcpFlags : Option TcpFlags
  ttl : Nat
  ipId : Option Nat
  isFake : Bool
deriving DecidableEq, Repr

namespace Packet

/-- `Packet::parse_transport`. -/
def parseTransport (p : Packet) : Option Packet :=
  let offset := p.ipHeaderLen
  match p.protocol with
  | .Tcp =>
    if p.data.length < offset + 20 then none
    else some { p with
      srcPort := be16 p.data offset
      dstPort := be16 p.data (offset + 2)
      transportHeaderLen := getB p.data (offset + 12) / 16 * 4
      tcpFlags := some (TcpFlags.fromByte (getB p.data (offset + 13))) }
  | .Udp =>
    if p.data.length < offset + 8 then none
    else some { p with
      srcPort := be16 p.data offset
      dstPort := be16 p.data (offset + 2)
      transportHeaderLen := 8 }
  | _ => some p

/-- `Packet::parse_ipv4`. -/
def parseIpv4 (p : Packet) : Option Packet :=
  if p.data.length < 20 then none
  else
    let ihl := getB p.data 0 % 16 * 4
    if p.data.length < ihl then none
    else
      parseTransport { p with
        ipVersion := .V4
        ipHeaderLen := ihl
        ipId := some (be16 p.data 4)
        ttl := getB p.data 8
        protocol := Protocol.fromU8 (getB p.data 9)
        srcAddr := .v4 (getB p.data 12) (getB p.data 13) (getB p.data 14) (getB p.data 15)
        dstAddr := .v4 (getB p.data 16) (getB p.data 17) (getB p.data 18) (getB p.data 19) }

/-- `Packet::parse_ipv6`. -/
def parseIpv6 (p : Packet) : Option Packet :=
  if p.data.length < 40 then none
  else
    parseTransport { p with
      ipVersion := .V6
      ipHeaderLen := 40
      ttl := getB p.data 7
      protocol := Protocol.fromU8 (getB p.data 6)
      srcAddr := .v6 ((p.data.drop 8).take 16)
      dstAddr := .v6 ((p.data.drop 24).take 16) }

/-- `Packet::from_bytes`: length guard, zero-initialised struct, then
version dispatch on the high nibble of byte 0. -/
def fromBytes (data : List Nat) (direction : Direction) : Option Packet :=
  if data.length < 20 then none
  else
    let p : Packet := {
      data := data
      direction := direction
      ipVersion := .V4
      protocol := .Unknown
      srcAddr := .v4 0 0 0 0
      dstAddr := .v4 0 0 0 0
      srcPort := 0
      dstPort := 0
      ipHeaderLen := 0
      transportHeaderLen := 0
      tcpFlags := none
      ttl := 0
      ipId := none
      isFake := false }
    let version := getB data 0 / 16 % 16
    if version = 4 then parseIpv4 p
    else if version = 6 then parseIpv6 p
    else none

/-- `Packet::payload`: the bytes after the IP and transport headers. -/
def payload (p : Packet) : List Nat :=
  let offset := p.ipHeaderLen + p.transportHeaderLen
  if offset < p.data.length then p.data.drop offset else []

/-- `Packet::payload_len`. -/
def payloadLen (p : Packet) : Nat := p.payload.length

/-- `Packet::is_outbound`. -/
def isOutbound (p : Packet) : Bool :=
  match p.direction with
  | .Outbound => true
  | .Inbound => false

/-- `Packet::is_tcp`. -/
def isTcp (p : Packet) : Bool :=
  match p.protocol with
  | .Tcp => true
  | _ => false

/-- `Packet::is_udp`. -/
def isUdp (p : Packet) : Bool :=
  match p.protocol with
  | .Udp => true
  | _ => false

/-- `Packet::is_ipv4`. -/
def isIpv4 (p : Packet) : Bool :=
  match p.ipVersion with
  | .V4 => true
  | .V6 => false

/-- `Packet::is_http_request`: payload starts with one of the seven
method prefixes (`"GET "`, `"POST"`, `"HEAD"`, `"PUT "`, `"DELE"`,
`"CONN"`, `"OPTI"`). -/
def isHttpRequest (p : Packet) : Bool :=
  let payload := p.payload
  if payload.length < 4 then false
  else
    let head := payload.take 4
    decide (head = [71, 69, 84, 32] ∨ head = [80, 79, 83, 84] ∨
      head = [72, 69, 65, 68] ∨ head = [80, 85, 84, 32] ∨
      head = [68, 69, 76, 69] ∨ head = [67, 79, 78, 78] ∨
      head = [79, 80, 84, 73])

/-- `Packet::is_tls_client_hello`: TLS handshake record, version 3.1/3.3. -/
def isTlsClientHello (p : Packet) : Bool :=
  let payload := p.payload
  if payload.length < 3 then false
  else
    decide (getB payload 0 = 0x16 ∧ getB payload 1 = 3 ∧
      (getB payload 2 = 1 ∨ getB payload 2 = 3))

/-- `Packet::tcp_seq`: big-endian `u32` at IP-header + 4. -/
def tcpSeq (p : Packet) : Option Nat :=
  if p.isTcp then
    let offset := p.ipHeaderLen + 4
    if offset + 4 ≤ p.data.length then some (be32 p.data offset) else none
  else none

/-- `Packet::tcp_ack_num`: big-endian `u32` at IP-header + 8. -/
def tcpAckNum (p : Packet) : Option Nat :=
  if p.isTcp then
    let offset := p.ipHeaderLen + 8
    if offset + 4 ≤ p.data.length then some (be32 p.data offset) else none
  else none

/-- `Packet::set_ttl`: byte 8 (v4) or byte 7 (v6), plus the cached field. -/
def setTtl (p : Packet) (ttl : Nat) : Packet :=
  match p.ipVersion with
  | .V4 => { p with data := p.data.set 8 ttl, ttl := ttl }
  | .V6 => { p with data := p.data.set 7 ttl, ttl := ttl }

/-- `Packet::set_tcp_seq`. -/
def setTcpSeq (p : Packet) (seq : Nat) : Packet :=
  if p.isTcp then { p with data := writeBE32 p.data (p.ipHeaderLen + 4) seq } else p

/-- `Packet::set_tcp_ack`. -/
def setTcpAck (p : Packet) (ack : Nat) : Packet :=
  if p.isTcp then { p with data := writeBE32 p.data (p.ipHeaderLen + 8) ack } else p

/-- `Packet::update_lengths`: rewrite the v4 total-length (bytes 2,3) or the
v6 payload-length (bytes 4,5) as a big-endian `u16` of the buffer length. -/
def updateLengths (p : Packet) : Packet :=
  let totalLen := p.data.length
  match p.ipVersion with
  | .V4 =>
    { p with data := (p.data.set 2 (totalLen / 256 % 256)).set 3 (totalLen % 256) }
  | .V6 =>
    { p with data :=
        (p.data.set 4 ((totalLen - 40) / 256 % 256)).set 5 ((totalLen - 40) % 256) }

/-- `Packet::split_at_payload`: reject `offset ≥ payload length`, otherwise
build both fragments from the shared header bytes, bump the second
fragment's TCP sequence number by `offset` (`u32` wrapping), and rewrite
both length fields.  `offset as u32` truncates mod `2^32`, and
`wrapping_add` is addition mod `2^32`, so the new sequence number is
`(seq + offset) % 2^32`. -/
def splitAtPayload (p : Packet) (offset : Nat) : Option (Packet × Packet) :=
  let headerLen := p.ipHeaderLen + p.transportHeaderLen
  let payload := p.payload
  if offset ≥ payload.length then none
  else
    let firstData := p.data.take headerLen ++ payload.take offset
    let secondData := p.data.take headerLen ++ payload.drop offset
    let first := updateLengths { p with data := firstData }
    let second0 : Packet := { p with data := secondData }
    let second1 :=
      match second0.tcpSeq with
      | some seq => second0.setTcpSeq ((seq + offset) % 2 ^ 32)
      | none => second0
    let second := updateLengths second1
    some (first, second)

end Packet

/-! ## Hostname extraction -/

/-- One step of Rust's UTF-8 validation: how many continuation bytes follow
a leading byte, together with the admissible range of the first
continuation byte (RFC 3629 exactly, as `std::str::from_utf8` checks). -/
def validUtf8 : List Nat → Bool
  | [] => true
  | b :: rest =>
    if b < 0x80 then validUtf8 rest
    else if 0xC2 ≤ b ∧ b ≤ 0xDF then
      match rest with
      | c1 :: r => if 0x80 ≤ c1 ∧ c1 ≤ 0xBF then validUtf8 r else false
      | [] => false
    else if 0xE0 ≤ b ∧ b ≤ 0xEF then
      match rest with
      | c1 :: c2 :: r =>
        let lo1 := if b = 0xE0 then 0xA0 else 0x80
        let hi1 := if b = 0xED then 0x9F else 0xBF
        if lo1 ≤ c1 ∧ c1 ≤ hi1 ∧ 0x80 ≤ c2 ∧ c2 ≤ 0xBF then validUtf8 r else false
      | _ => false
    else if 0xF0 ≤ b ∧ b ≤ 0xF4 then
      match rest with
      | c1 :: c2 :: c3 :: r =>
        let lo1 := if b = 0xF0 then 0x90 else 0x80
        let hi1 := if b = 0xF4 then 0x8F else 0xBF
        if lo1 ≤ c1 ∧ c1 ≤ hi1 ∧ 0x80 ≤ c2 ∧ c2 ≤ 0xBF ∧ 0x80 ≤ c3 ∧ c3 ≤ 0xBF then
          validUtf8 r
        else false
      | _ => false
    else false

/-- Byte index of the first occurrence of `pat` in a buffer
(`str::find` of an ASCII pattern returns exactly this byte position). -/
def findSub (pat : List Nat) : List Nat → Option Nat
  | [] => if pat.isEmpty then some 0 else none
  | b :: rest =>
    if pat.isPrefixOf (b :: rest) then some 0
    else (findSub pat rest).map (· + 1)

/-- The bytes of `"\r\nHost: "`. -/
def httpHostMarker : List Nat := [13, 10, 72, 111, 115, 116, 58, 32]

/-- The bytes of `"\r\n"`. -/
def crlfBytes : List Nat := [13, 10]

/-- `Packet::extract_http_host`: UTF-8 check, find `"\r\nHost: "`, read up
to the next `"\r\n"`, accept byte lengths 3..=253.  Hostnames stay as
byte lists throughout the embedding. -/
def Packet.extractHttpHost (p : Packet) : Option (List Nat) :=
  let payload := p.payload
  if ¬ validUtf8 payload then none
  else
    match findSub httpHostMarker payload with
    | none => none
    | some idx =>
      let hostStart := idx + httpHostMarker.length
      match findSub crlfBytes (payload.drop hostStart) with
      | none => none
      | some rel =>
        let host := (payload.drop hostStart).take rel
        if 3 ≤ host.length ∧ host.length ≤ 253 then some host else none

/-- Hostname characters admitted by `extract_sni`: `0-9`, `a-z`, `.`, `-`. -/
def isHostChar (b : Nat) : Bool :=
  decide ((48 ≤ b ∧ b ≤ 57) ∨ (97 ≤ b ∧ b ≤ 122) ∨ b = 46 ∨ b = 45)

/-- The scanning loop of `Packet::extract_sni`: slide `ptr` over the
payload looking for the `00 00` extension type, validate the
ext-len / list-len / name-len / name-type relations, then the hostname
length and characters; on any failure continue at `ptr + 1`. -/
def sniScan (payload : List Nat) (ptr : Nat) : Option (List Nat) :=
  if h : ptr + 10 < payload.length then
    if getB payload ptr = 0 ∧ getB payload (ptr + 1) = 0 then
      if ptr + 9 ≥ payload.length then sniScan payload (ptr + 1)
      else
        let extLen := be16 payload (ptr + 2)
        let listLen := be16 payload (ptr + 4)
        let nameType := getB payload (ptr + 6)
        let nameLen := be16 payload (ptr + 7)
        if extLen = listLen + 2 ∧ listLen = nameLen + 3 ∧ nameType = 0 then
          let sniStart := ptr + 9
          let sniBytes := (payload.drop sniStart).take nameLen
          if sniStart + nameLen ≤ payload.length ∧ 3 ≤ nameLen ∧ nameLen ≤ 253 ∧
              sniBytes.all isHostChar then
            some sniBytes
          else sniScan payload (ptr + 1)
        else sniScan payload (ptr + 1)
    else sniScan payload (ptr + 1)
  else none
termination_by payload.length - ptr

/-- `Packet::extract_sni`. -/
def Packet.extractSni (p : Packet) : Option (List Nat) :=
  if p.payload.length < 44 then none else sniScan p.payload 0

/-! ## Hostname strings

Hostnames are byte lists; `String::to_lowercase`, `str::trim` and
`str::find('.')` are modelled byte-wise, which coincides with the Rust
behaviour on ASCII hostnames (the only ones `extract_sni` admits and the
filter files contain). -/

/-- ASCII lowercasing, byte-wise (`String::to_lowercase` on ASCII). -/
def lowerBytes (s : List Nat) : List Nat :=
  s.map fun b => if 65 ≤ b ∧ b ≤ 90 then b + 32 else b

/-- ASCII whitespace for `str::trim`. -/
def isWsByte (b : Nat) : Bool :=
  decide (b = 32 ∨ b = 9 ∨ b = 10 ∨ b = 13 ∨ b = 11 ∨ b = 12)

/-- `str::trim` on ASCII: strip whitespace from both ends. -/
def trimBytes (s : List Nat) : List Nat :=
  ((s.dropWhile isWsByte).reverse.dropWhile isWsByte).reverse

/-- The `current.find('.')` / `current = &current[pos + 1..]` step shared by
the parent-domain loops: the part after the first dot, or `none`. -/
def dropLabelB : List Nat → Option (List Nat)
  | [] => none
  | b :: rest => if b = 46 then some rest else dropLabelB rest

theorem dropLabelB_length : ∀ {s s2 : List Nat}, dropLabelB s = some s2 →
    s2.length < s.length := by
  intro s
  induction s with
  | nil => intro s2 h; simp [dropLabelB] at h
  | cons b rest ih =>
    intro s2 h
    by_cases hb : b = 46
    · simp [dropLabelB, hb] at h
      subst h; simp
    · simp [dropLabelB, hb] at h
      exact Nat.lt_trans (ih h) (by simp)

/-! ## Context, statistics, tracking tables -/

/-- The pipeline statistics counters. -/
structure Stats where
  packetsProcessed : Nat
  packetsFragmented : Nat
  fakePacketsSent : Nat
  headersModified : Nat
  quicBlocked : Nat
  dnsRedirected : Nat
  packetsDropped : Nat
deriving DecidableEq, Repr

/-- `Stats::default()`. -/
def Stats.default : Stats :=
  ⟨0, 0, 0, 0, 0, 0, 0⟩

/-- The `TcpConnTracker` key: (server ip, server port, client ip, client port). -/
abbrev ConnKey := IpAddress × Nat × IpAddress × Nat

/-- The v2 pipeline `Context`: statistics, blacklist, and the two
tracking tables as replace-on-insert association lists. -/
structure Context where
  stats : Stats
  blacklistEnabled : Bool
  blacklist : List (List Nat)
  tcpTable : List (ConnKey × Nat)
  dnsTable : List (Nat × (IpAddress × Nat))
deriving DecidableEq, Repr

namespace Context

/-- `Context::new()`. -/
def new : Context :=
  ⟨Stats.default, false, [], [], []⟩

/-- `TcpConnTracker::get_ttl` (expiry not modelled): the recorded SYN-ACK
TTL for the flow, if present. -/
def getConnectionTtl (ctx : Context) (p : Packet) : Option Nat :=
  (ctx.tcpTable.find? fun e =>
    decide (e.1 = (p.dstAddr, p.dstPort, p.srcAddr, p.srcPort))).map (·.2)

/-- `DnsConnTracker::track_query` via `DashMap::insert`: replace any
binding of the key. -/
def dnsTrackQuery (ctx : Context) (srcPort : Nat) (origDst : IpAddress)
    (origPort : Nat) : Context :=
  { ctx with dnsTable :=
      (srcPort, (origDst, origPort)) ::
        ctx.dnsTable.filter fun e => decide (e.1 ≠ srcPort) }

/-- `DnsConnTracker::get_original` (expiry not modelled). -/
def dnsGetOriginal (ctx : Context) (srcPort : Nat) : Option (IpAddress × Nat) :=
  (ctx.dnsTable.find? fun e => decide (e.1 = srcPort)).map (·.2)

/-- `Context::is_blacklisted`: everything matches when the blacklist is
disabled; otherwise lowercase, exact membership, then the parent-domain
loop. -/
def isBlacklisted (ctx : Context) (hostname : List Nat) : Bool :=
  if ¬ ctx.blacklistEnabled then true
  else
    let h := lowerBytes hostname
    if ctx.blacklist.contains h then true
    else blacklistParents ctx.blacklist h
where
  /-- The `while let Some(pos) = current.find('.')` loop: strip one label,
  test membership, repeat. -/
  blacklistParents (bl : List (List Nat)) (current : List Nat) : Bool :=
    match h : dropLabelB current with
    | some next => if bl.contains next then true else blacklistParents bl next
    | none => false
  termination_by current.length
  decreasing_by exact dropLabelB_length h

end Context

/-! ## Domain filter (old tree, `filter/domain_filter.rs`) -/

/-- `FilterMode`. -/
inductive FilterMode
  | Disabled
  | Whitelist
  | Blacklist
deriving DecidableEq, Repr

/-- `DomainFilter`: mode, exact-hostname set and wildcard-suffix set
(the latter stored without the leading `"*."`).  `DashSet` becomes a
list with membership-guarded insert. -/
structure DomainFilter where
  mode : FilterMode
  exactDomains : List (List Nat)
  wildcardDomains : List (List Nat)
deriving DecidableEq, Repr

/-- `DashSet::insert`. -/
def insertSet (l : List (List Nat)) (x : List Nat) : List (List Nat) :=
  if l.contains x then l else x :: l

namespace DomainFilter

/-- `DomainFilter::add_domain`: trim, lowercase, skip empty and comment
lines, route `"*."`-prefixed entries to the wildcard set. -/
def addDomain (f : DomainFilter) (domain : List Nat) : DomainFilter :=
  let d := lowerBytes (trimBytes domain)
  if d.isEmpty then f
  else if getB d 0 = 35 then f
  else
    match d with
    | 42 :: 46 :: stripped => { f with wildcardDomains := insertSet f.wildcardDomains stripped }
    | _ => { f with exactDomains := insertSet f.exactDomains d }

/-- The wildcard `loop` of `DomainFilter::matches`: test the current
suffix, then strip one label and repeat until no dot is left. -/
def wildcardLoop (wl : List (List Nat)) (current : List Nat) : Bool :=
  if wl.contains current then true
  else
    match h : dropLabelB current with
    | some next => wildcardLoop wl next
    | none => false
termination_by current.length
decreasing_by exact dropLabelB_length h

/-- `DomainFilter::matches`: lowercase, exact membership, the wildcard
suffix loop, and the (redundant) final direct wildcard membership test. -/
def «matches» (f : DomainFilter) (hostname : List Nat) : Bool :=
  let h := lowerBytes hostname
  if f.exactDomains.contains h then true
  else if wildcardLoop f.wildcardDomains h then true
  else if f.wildcardDomains.contains h then true
  else false

end DomainFilter

/-! ## Strategy actions -/

/-- `StrategyAction`. -/
inductive StrategyAction
  | Pass (p : Packet)
  | Replace (ps : List Packet)
  | Drop
  | InjectBefore (inject : List Packet) (original : Packet)
  | InjectAfter (original : Packet) (inject : List Packet)
deriving DecidableEq, Repr

/-! ## Fake-packet strategy -/

/-- `AutoTtlConfig { a1, a2, max }`. -/
structure AutoTtlConfig where
  a1 : Nat
  a2 : Nat
  max : Nat
deriving DecidableEq, Repr

/-- `FakePacketStrategy` configuration fields. -/
structure FakePacketStrategy where
  wrongChecksum : Bool
  wrongSeq : Bool
  ttl : Option Nat
  autoTtl : Option AutoTtlConfig
  minTtlHops : Option Nat
  resendCount : Nat
deriving Repr

namespace FakePacketStrategy

/-- `FakePacketStrategy::auto_ttl_calculate`.  The short-distance
refinement computes `scale = (a2 - a1) as f32 * (nhops as f32 / 10.0)`
and truncates it to `u8`; for every `a2 - a1 ≤ 255` and `nhops ≤ 9` the
`f32` round-off (relative error below `2^-23`) cannot carry the product
across the 0.1-spaced grid of exact values, and exact integer products
round back to themselves, so the truncation equals the exact
`(a2 - a1) * nhops / 10` floor used here.  `u8` subtraction `a2 - a1`
requires `a1 ≤ a2` (enforced as a hypothesis of the theorems);
`saturating_sub` is `Nat` subtraction. -/
def autoTtlFrom (minTtlHops : Option Nat) (config : AutoTtlConfig)
    (nhops : Nat) : Option Nat :=
  if (match minTtlHops with
      | some minHops => decide (nhops < minHops)
      | none => false) then none
  else
    let fakeTtl0 := nhops - config.a2
    let fakeTtl1 :=
      if fakeTtl0 < config.a2 ∧ nhops ≤ 9 then
        nhops - config.a1 - (config.a2 - config.a1) * nhops / 10
      else fakeTtl0
    let fakeTtl := if fakeTtl1 > config.max then config.max else fakeTtl1
    if fakeTtl > 0 then some fakeTtl else none

/-- The hop-count dispatch of `auto_ttl_calculate` (see `autoTtlFrom` for
the body shared by both TTL estimates). -/
def autoTtlCalculate (s : FakePacketStrategy) (connTtl : Nat)
    (config : AutoTtlConfig) : Option Nat :=
  if 98 < connTtl ∧ connTtl < 128 then autoTtlFrom s.minTtlHops config (128 - connTtl)
  else if 34 < connTtl ∧ connTtl < 64 then autoTtlFrom s.minTtlHops config (64 - connTtl)
  else none

/-- `FakePacketStrategy::calculate_ttl`: fixed TTL, else auto TTL from the
hop table, else the fallback TTL 8. -/
def calculateTtl (s : FakePacketStrategy) (ctx : Context) (packet : Packet) :
    Option Nat :=
  match s.ttl with
  | some t => some t
  | none =>
    match s.autoTtl with
    | some autoConfig =>
      match ctx.getConnectionTtl packet with
      | some connTtl => s.autoTtlCalculate connTtl autoConfig
      | none => some 8
    | none => some 8

/-- The v2 `should_apply`: outbound TCP with payload, HTTP request to port
80 or ClientHello to port 443, and (when blacklist filtering is on) the
extracted hostname, if any, must be blacklisted. -/
def v2ShouldApply (packet : Packet) (ctx : Context) : Bool :=
  if ¬ (packet.isOutbound ∧ packet.isTcp) then false
  else if packet.payloadLen = 0 then false
  else
    let isHttp := packet.dstPort = 80 ∧ packet.isHttpRequest
    let isHttps := packet.dstPort = 443 ∧ packet.isTlsClientHello
    if ¬ isHttp ∧ ¬ isHttps then false
    else if ctx.blacklistEnabled then
      match (if isHttp then packet.extractHttpHost else packet.extractSni) with
      | some host => if ¬ ctx.isBlacklisted host then false else true
      | none => true
    else true

end FakePacketStrategy

/-- The payload of the benign fake HTTP request,
`"GET / HTTP/1.1\r\nHost: www.w3.org\r\nUser-Agent: curl/7.65.3\r\n\r\n"`. -/
def fakeHttpPayload : List Nat :=
  ("GET / HTTP/1.1".data.map Char.toNat) ++ [13, 10] ++
    ("Host: www.w3.org".data.map Char.toNat) ++ [13, 10] ++
    ("User-Agent: curl/7.65.3".data.map Char.toNat) ++ [13, 10, 13, 10]

/-- The v2 fake TLS ClientHello payload (the truncated constant in
`v2/.../fake_packet.rs`). -/
def v2FakeHttpsPayload : List Nat :=
  [0x16, 0x03, 0x01, 0x02, 0x00, 0x01, 0x00, 0x01, 0xfc, 0x03, 0x03,
   0x9a, 0x8f, 0xa7, 0x6a, 0x5d, 0x57, 0xf3, 0x62, 0x19, 0xbe, 0x46,
   0x82, 0x45, 0xe2, 0x59, 0x5c, 0xb4, 0x48, 0x31, 0x12, 0x15, 0x14,
   0x79, 0x2c, 0xaa, 0xcd, 0xea, 0xda, 0xf0, 0xe1, 0xfd, 0xbb, 0x20,
   0xf4, 0x83, 0x2a, 0x94, 0xf1, 0x48, 0x3b, 0x9d, 0xb6, 0x74, 0xba]

namespace FakePacketStrategy

/-- The v2 `create_fake_packet`: copy the original's bytes, re-parse them
(`Packet::from_bytes(..).unwrap()`, `none` standing for the panic), set
the TTL, and on `wrong_seq` shift SEQ back by 10000 and ACK by 66000
(`u32` wrapping).  The `fakePayload` argument is received but never
used — exactly as in the source, where the decoy therefore keeps the
original payload and `is_fake` is never set. -/
def v2CreateFakePacket (original : Packet) (fakePayload : List Nat)
    (ttl : Nat) (wrongSeq : Bool) : Option Packet :=
  match Packet.fromBytes original.data original.direction with
  | none => none
  | some fake0 =>
    let fake1 := fake0.setTtl ttl
    let fake2 :=
      if wrongSeq then
        let fakeA :=
          match fake1.tcpSeq with
          | some seq => fake1.setTcpSeq (wrapSub32 seq 10000)
          | none => fake1
        match fakeA.tcpAckNum with
        | some ack => fakeA.setTcpAck (wrapSub32 ack 66000)
        | none => fakeA
      else fake1
    some fake2

/-- The v2 `create_fake_http`. -/
def v2CreateFakeHttp (original : Packet) (ttl : Nat) (wrongSeq : Bool) :
    Option Packet :=
  v2CreateFakePacket original fakeHttpPayload ttl wrongSeq

/-- The v2 `create_fake_https`. -/
def v2CreateFakeHttps (original : Packet) (ttl : Nat) (wrongSeq : Bool) :
    Option Packet :=
  v2CreateFakePacket original v2FakeHttpsPayload ttl wrongSeq

/-- The v2 `damage_checksum`: flip the low bit of byte 36 when the buffer
is longer than 36 bytes. -/
def v2DamageChecksum (packet : Packet) : Packet :=
  if 36 < packet.data.length then
    { packet with data := packet.data.set 36 ((getB packet.data 36) ^^^ 1) }
  else packet

/-- One iteration of the v2 `apply` resend loop: the bad-TTL variant (only
when a fixed or auto TTL is configured), the bad-checksum variant, the
bad-SEQ variant, in that order. -/
def v2OneRound (s : FakePacketStrategy) (packet : Packet) (ttl : Nat)
    (isHttps : Bool) : Option (List Packet) := do
  let l1 ←
    if s.ttl.isSome || s.autoTtl.isSome then do
      let f ← if isHttps then v2CreateFakeHttps packet ttl false
              else v2CreateFakeHttp packet ttl false
      pure [f]
    else pure []
  let l2 ←
    if s.wrongChecksum then do
      let f ← if isHttps then v2CreateFakeHttps packet 64 false
              else v2CreateFakeHttp packet 64 false
      pure [v2DamageChecksum f]
    else pure []
  let l3 ←
    if s.wrongSeq then do
      let f ← if isHttps then v2CreateFakeHttps packet 64 true
              else v2CreateFakeHttp packet 64 true
      pure [f]
    else pure []
  pure (l1 ++ l2 ++ l3)

/-- The `for _ in 0..resend_count` loop of the v2 `apply`. -/
def v2Rounds (s : FakePacketStrategy) (packet : Packet) (ttl : Nat)
    (isHttps : Bool) : Nat → Option (List Packet)
  | 0 => some []
  | n + 1 => do
    let r ← v2OneRound s packet ttl isHttps
    let rest ← v2Rounds s packet ttl isHttps n
    pure (r ++ rest)

/-- The v2 `apply`: TTL calculation (`None` falls back to `Pass`), the
resend loop, the `fake_packets_sent` counter, and `InjectBefore`. -/
def v2Apply (s : FakePacketStrategy) (packet : Packet) (ctx : Context) :
    Option (StrategyAction × Context) :=
  match s.calculateTtl ctx packet with
  | none => some (.Pass packet, ctx)
  | some ttl =>
    let isHttps := decide (packet.dstPort = 443)
    match v2Rounds s packet ttl isHttps s.resendCount with
    | none => none
    | some fakes =>
      some (.InjectBefore fakes packet,
        { ctx with stats :=
            { ctx.stats with fakePacketsSent := ctx.stats.fakePacketsSent + fakes.length } })

end FakePacketStrategy

/-! ## Old-tree fake-packet creation

The older crate's `Packet` (its `packet/mod.rs` is not part of the corpus;
only its callers are) additionally offers `with_new_payload` and
`zero_checksums`, and carries the `is_fake` marker set below. -/

namespace Packet

/-- Modelled from the spec: `Packet::with_new_payload(bytes)` of the older
tree's packet module (missing from the corpus) "replaces payload,
rewrites v4 total-length, zeros TCP/UDP checksum fields so the driver
recalculates".  The checksum zeroing is performed by `zeroChecksums`
below; here the payload is replaced and the length field rewritten. -/
def withNewPayload (p : Packet) (newPayload : List Nat) : Packet :=
  let headerLen := p.ipHeaderLen + p.transportHeaderLen
  updateLengths { p with data := p.data.take headerLen ++ newPayload }

/-- Modelled from the spec: `Packet::zero_checksums` of the older tree's
packet module (missing from the corpus) "writes zero to IP-header
checksum (v4) and TCP/UDP checksum" — bytes 10..11 of the IPv4 header,
and bytes 16..17 (TCP) or 6..7 (UDP) of the transport header. -/
def zeroChecksums (p : Packet) : Packet :=
  let d1 := if p.ipVersion = .V4 then (p.data.set 10 0).set 11 0 else p.data
  let d2 :=
    match p.protocol with
    | .Tcp => (d1.set (p.ipHeaderLen + 16) 0).set (p.ipHeaderLen + 17) 0
    | .Udp => (d1.set (p.ipHeaderLen + 6) 0).set (p.ipHeaderLen + 7) 0
    | _ => d1
  { p with data := d2 }

end Packet

namespace FakePacketStrategy

/-- The old-tree `create_fake_packet`: replace the payload with the fake
one, mark the decoy `is_fake`, set the TTL, optionally shift SEQ/ACK
into the past, and zero the checksums. -/
def oldCreateFakePacket (original : Packet) (fakePayload : List Nat)
    (ttl : Nat) (wrongSeq : Bool) : Packet :=
  let fake0 := original.withNewPayload fakePayload
  let fake1 := { fake0 with isFake := true }
  let fake2 := fake1.setTtl ttl
  let fake3 :=
    if wrongSeq then
      let fakeA :=
        match fake2.tcpSeq with
        | some seq => fake2.setTcpSeq (wrapSub32 seq 10000)
        | none => fake2
      match fakeA.tcpAckNum with
      | some ack => fakeA.setTcpAck (wrapSub32 ack 66000)
      | none => fakeA
    else fake2
  fake3.zeroChecksums

/-- The old-tree `create_fake_http`. -/
def oldCreateFakeHttp (original : Packet) (ttl : Nat) (wrongSeq : Bool) : Packet :=
  oldCreateFakePacket original fakeHttpPayload ttl wrongSeq

end FakePacketStrategy

/-! ## Fragmentation strategy -/

/-- `FragmentationStrategy` configuration fields. -/
structure FragmentationStrategy where
  httpSize : Nat
  httpsSize : Nat
  nativeSplit : Bool
  reverseOrder : Bool
  bySni : Bool
  httpPersistent : Bool
deriving Repr

namespace FragmentationStrategy

/-- `FragmentationStrategy::extract_hostname`. -/
def extractHostname (packet : Packet) : Option (List Nat) :=
  if packet.isHttpRequest then packet.extractHttpHost
  else if packet.isTlsClientHello then packet.extractSni
  else none

/-- `FragmentationStrategy::should_apply`: refuse decoys (`is_fake`),
require outbound TCP with payload to port 80 (HTTP request) or 443
(ClientHello), and apply the blacklist the same way as fake-packet. -/
def shouldApply (packet : Packet) (ctx : Context) : Bool :=
  if packet.isFake then false
  else if ¬ packet.isOutbound then false
  else if ¬ packet.isTcp then false
  else if packet.payloadLen = 0 then false
  else
    let isHttp := packet.dstPort = 80
    let isHttps := packet.dstPort = 443
    if ¬ isHttp ∧ ¬ isHttps then false
    else if isHttp ∧ ¬ packet.isHttpRequest then false
    else if isHttps ∧ ¬ packet.isTlsClientHello then false
    else if ctx.blacklistEnabled then
      match extractHostname packet with
      | some hostname => if ¬ ctx.isBlacklisted hostname then false else true
      | none => true
    else true

/-- `FragmentationStrategy::get_fragment_size`. -/
def getFragmentSize (s : FragmentationStrategy) (packet : Packet) : Nat :=
  if packet.dstPort = 80 ∨ packet.srcPort = 80 then s.httpSize else s.httpsSize

/-- `FragmentationStrategy::find_sni_fragment_position`: first index with
three consecutive zero bytes, scanned while `i < len - 10`. -/
def findSniPosScan (payload : List Nat) (i : Nat) (stop : Nat) : Option Nat :=
  if h : i < stop then
    if getB payload i = 0 ∧ getB payload (i + 1) = 0 ∧ getB payload (i + 2) = 0 then
      some i
    else findSniPosScan payload (i + 1) stop
  else none
termination_by stop - i

/-- `FragmentationStrategy::find_sni_fragment_position`. -/
def findSniFragmentPosition (s : FragmentationStrategy) (packet : Packet) :
    Option Nat :=
  if ¬ s.bySni then none
  else
    let payload := packet.payload
    if payload.length < 44 then none
    else findSniPosScan payload 0 (payload.length - 10)

/-- `FragmentationStrategy::apply`: pick the fragment size (SNI position
when `by_sni`), pass oversized fragments through, split, count, and
return the fragments in configured order. -/
def apply (s : FragmentationStrategy) (packet : Packet) (ctx : Context) :
    Option (StrategyAction × Context) :=
  let fragmentSize :=
    if s.bySni then (s.findSniFragmentPosition packet).getD (s.getFragmentSize packet)
    else s.getFragmentSize packet
  if fragmentSize ≥ packet.payloadLen then some (.Pass packet, ctx)
  else
    match packet.splitAtPayload fragmentSize with
    | none => none
    | some (first, second) =>
      let ctx2 := { ctx with stats :=
        { ctx.stats with packetsFragmented := ctx.stats.packetsFragmented + 1 } }
      let fragments := if s.reverseOrder then [second, first] else [first, second]
      some (.Replace fragments, ctx2)

end FragmentationStrategy

/-! ## QUIC-block strategy -/

/-- `QuicBlockStrategy { min_payload_size }`. -/
structure QuicBlockStrategy where
  minPayloadSize : Nat
deriving DecidableEq, Repr

namespace QuicBlockStrategy

/-- `QuicBlockStrategy::new()`. -/
def new : QuicBlockStrategy := ⟨1200⟩

/-- `QuicBlockStrategy::is_quic_initial`: at least `min_payload_size`
bytes, both high bits of the first byte set, and a version field of 0
or 1. -/
def isQuicInitial (s : QuicBlockStrategy) (packet : Packet) : Bool :=
  let payload := packet.payload
  if payload.length < s.minPayloadSize then false
  else if getB payload 0 < 0xC0 then false
  else if 5 ≤ payload.length then
    let version := be32 payload 1
    if version = 1 ∨ version = 0 then true else false
  else false

/-- `QuicBlockStrategy::should_apply`: outbound UDP to port 443 with at
least `min_payload_size` bytes of payload. -/
def shouldApply (s : QuicBlockStrategy) (packet : Packet) (ctx : Context) : Bool :=
  packet.isOutbound && packet.isUdp && decide (packet.dstPort = 443) &&
    decide (s.minPayloadSize ≤ packet.payloadLen)

/-- `QuicBlockStrategy::apply`: drop QUIC Initials and count them, pass
everything else unchanged. -/
def apply (s : QuicBlockStrategy) (packet : Packet) (ctx : Context) :
    Option (StrategyAction × Context) :=
  if s.isQuicInitial packet then
    some (.Drop,
      { ctx with stats := { ctx.stats with quicBlocked := ctx.stats.quicBlocked + 1 } })
  else some (.Pass packet, ctx)

end QuicBlockStrategy

/-! ## DNS-redirect strategy -/

/-- `DnsRedirectStrategy`: upstream resolver address (four octets) and port. -/
structure DnsRedirectStrategy where
  upstreamAddr : Nat × Nat × Nat × Nat
  upstreamPort : Nat
deriving DecidableEq, Repr

namespace DnsRedirectStrategy

/-- `DnsRedirectStrategy::is_dns_query`: at least 12 bytes, QR bit clear,
`qdcount ≥ 1`, `ancount = 0`. -/
def isDnsQuery (payload : List Nat) : Bool :=
  if payload.length < 12 then false
  else
    let flags := be16 payload 2
    if flags &&& 0x8000 ≠ 0 then false
    else
      let qdcount := be16 payload 4
      if qdcount = 0 then false
      else
        let ancount := be16 payload 6
        if ancount ≠ 0 then false else true

/-- `DnsRedirectStrategy::redirect_packet`: overwrite the destination
address bytes 16..19 and, at the IHL-derived offset, the UDP
destination-port bytes.  Only the raw buffer is touched; the parsed
`dst_addr` / `dst_port` metadata stays as it was. -/
def redirectPacket (s : DnsRedirectStrategy) (packet : Packet) : Packet :=
  let (o0, o1, o2, o3) := s.upstreamAddr
  let d1 := (((packet.data.set 16 o0).set 17 o1).set 18 o2).set 19 o3
  let ipHeaderLen := getB d1 0 % 16 * 4
  let d2 := (d1.set (ipHeaderLen + 2) (s.upstreamPort / 256 % 256)).set
    (ipHeaderLen + 3) (s.upstreamPort % 256)
  { packet with data := d2 }

/-- `DnsRedirectStrategy::should_apply`: outbound IPv4 UDP to port 53. -/
def shouldApply (packet : Packet) (ctx : Context) : Bool :=
  packet.isOutbound && packet.isUdp && decide (packet.dstPort = 53) && packet.isIpv4

/-- `DnsRedirectStrategy::apply`: pass non-queries unchanged; otherwise
record the original destination under the client's source port, rewrite
the destination in place, count, and pass the rewritten packet on. -/
def apply (s : DnsRedirectStrategy) (packet : Packet) (ctx : Context) :
    Option (StrategyAction × Context) :=
  if ¬ isDnsQuery packet.payload then some (.Pass packet, ctx)
  else
    let ctx1 := ctx.dnsTrackQuery packet.srcPort packet.dstAddr packet.dstPort
    let packet2 := s.redirectPacket packet
    let ctx2 := { ctx1 with stats :=
      { ctx1.stats with dnsRedirected := ctx1.stats.dnsRedirected + 1 } }
    some (.Pass packet2, ctx2)

end DnsRedirectStrategy

/-! ## Pipeline -/

/-- A pipeline entry: the four-operation strategy contract, with `apply`
threading the mutable context and `Option` covering `Result`. -/
structure Strategy where
  name : String
  priority : Nat
  enabled : Bool
  shouldApply : Packet → Context → Bool
  apply : Packet → Context → Option (StrategyAction × Context)

/-- How `Pipeline::process` expands one strategy action into the packet
list. -/
def expandAction : StrategyAction → List Packet
  | .Pass p => [p]
  | .Replace ps => ps
  | .Drop => []
  | .InjectBefore inject original => inject ++ [original]
  | .InjectAfter original inject => original :: inject

/-- The inner `for pkt in packets` loop of `Pipeline::process`: apply one
strategy to each element in order, threading the context, with `?`-style
error propagation. -/
def runStrategyOver (s : Strategy) : List Packet → Context →
    Option (List Packet × Context)
  | [], ctx => some ([], ctx)
  | pkt :: rest, ctx =>
    if s.shouldApply pkt ctx then
      match s.apply pkt ctx with
      | none => none
      | some (act, ctx1) =>
        match runStrategyOver s rest ctx1 with
        | none => none
        | some (out, ctx2) => some (expandAction act ++ out, ctx2)
    else
      match runStrategyOver s rest ctx with
      | none => none
      | some (out, ctx2) => some (pkt :: out, ctx2)

/-- The outer strategy loop of `Pipeline::process`, skipping disabled
strategies and stopping early once every packet has been dropped. -/
def pipelineRun : List Strategy → List Packet → Context →
    Option (List Packet × Context)
  | [], pkts, ctx => some (pkts, ctx)
  | s :: rest, pkts, ctx =>
    if s.enabled then
      match runStrategyOver s pkts ctx with
      | none => none
      | some (pkts2, ctx2) =>
        if pkts2.isEmpty then some (pkts2, ctx2)
        else pipelineRun rest pkts2 ctx2
    else pipelineRun rest pkts ctx

/-- `Pipeline::process`: start from `[packet]`, run every strategy, then
bump the processed counter. -/
def Pipeline.process (strategies : List Strategy) (packet : Packet)
    (ctx : Context) : Option (List Packet × Context) :=
  match pipelineRun strategies [packet] ctx with
  | none => none
  | some (pkts, ctx2) =>
    some (pkts, { ctx2 with stats :=
      { ctx2.stats with packetsProcessed := ctx2.stats.packetsProcessed + 1 } })

/-! ## Byte-access helper lemmas -/

theorem getB_set_ne (l : List Nat) (i j v : Nat) (h : i ≠ j) :
    getB (l.set i v) j = getB l j := by
  simp [getB, List.getD_eq_getElem?_getD, List.getElem?_set_ne h]

theorem getB_set_self (l : List Nat) (i v : Nat) (h : i < l.length) :
    getB (l.set i v) i = v := by
  simp [getB, List.getD_eq_getElem?_getD, List.getElem?_set_self h]

theorem getB_append_left (l1 l2 : List Nat) (i : Nat) (h : i < l1.length) :
    getB (l1 ++ l2) i = getB l1 i := by
  simp [getB, List.getD_eq_getElem?_getD, List.getElem?_append_left h]

theorem getB_take (l : List Nat) (n i : Nat) (h : i < n) :
    getB (l.take n) i = getB l i := by
  simp [getB, List.getD_eq_getElem?_getD, List.getElem?_take_of_lt h]

theorem length_writeBE32 (l : List Nat) (i v : Nat) :
    (writeBE32 l i v).length = l.length := by
  simp [writeBE32]

theorem getB_writeBE32_ne (l : List Nat) (i v j : Nat)
    (h : j < i ∨ i + 4 ≤ j) : getB (writeBE32 l i v) j = getB l j := by
  unfold writeBE32
  rw [getB_set_ne _ (i + 3) j _ (by omega), getB_set_ne _ (i + 2) j _ (by omega),
    getB_set_ne _ (i + 1) j _ (by omega), getB_set_ne _ i j _ (by omega)]

/-- Reading back a 32-bit big-endian write recovers the written `u32`. -/
theorem be32_writeBE32 (l : List Nat) (i v : Nat) (hv : v < 2 ^ 32)
    (hl : i + 4 ≤ l.length) : be32 (writeBE32 l i v) i = v := by
  have h3 : getB (writeBE32 l i v) (i + 3) = v % 256 := by
    unfold writeBE32
    exact getB_set_self _ _ _ (by simp only [List.length_set]; omega)
  have h2 : getB (writeBE32 l i v) (i + 2) = v / 2 ^ 8 % 256 := by
    unfold writeBE32
    rw [getB_set_ne _ (i + 3) (i + 2) _ (by omega)]
    exact getB_set_self _ _ _ (by simp only [List.length_set]; omega)
  have h1 : getB (writeBE32 l i v) (i + 1) = v / 2 ^ 16 % 256 := by
    unfold writeBE32
    rw [getB_set_ne _ (i + 3) (i + 1) _ (by omega),
      getB_set_ne _ (i + 2) (i + 1) _ (by omega)]
    exact getB_set_self _ _ _ (by simp only [List.length_set]; omega)
  have h0 : getB (writeBE32 l i v) i = v / 2 ^ 24 % 256 := by
    unfold writeBE32
    rw [getB_set_ne _ (i + 3) i _ (by omega), getB_set_ne _ (i + 2) i _ (by omega),
      getB_set_ne _ (i + 1) i _ (by omega)]
    exact getB_set_self _ _ _ (by omega)
  unfold be32
  rw [h0, h1, h2, h3]
  have e24 : (2 : Nat) ^ 24 = 16777216 := by norm_num
  have e16 : (2 : Nat) ^ 16 = 65536 := by norm_num
  have e8 : (2 : Nat) ^ 8 = 256 := by norm_num
  have e32 : (2 : Nat) ^ 32 = 4294967296 := by norm_num
  rw [e24, e16, e8]
  rw [e32] at hv
  omega

/-! ## Concrete test packets -/

/-- An outbound IPv4 TCP packet to port 80: 20-byte IP header, 20-byte TCP
header, sequence 4096, ack 8192, and the payload
`"GET / HTTP/1.1\r\n\r\n"` (an HTTP request line with no Host header). -/
def tcpTestData : List Nat :=
  [0x45, 0x00, 0x00, 0x3A, 0x00, 0x01, 0x00, 0x00,
   0x40, 0x06, 0xAB, 0xCD, 0x0A, 0x00, 0x00, 0x01,
   0x5D, 0xB8, 0xD8, 0x22,
   0xD9, 0x03, 0x00, 0x50,
   0x00, 0x00, 0x10, 0x00,
   0x00, 0x00, 0x20, 0x00,
   0x50, 0x18, 0x00, 0x00,
   0x12, 0x34, 0x00, 0x00] ++
    ("GET / HTTP/1.1".data.map Char.toNat) ++ [13, 10, 13, 10]

/-- The parse of `tcpTestData`. -/
def tcpTestPacket : Packet where
  data := tcpTestData
  direction := .Outbound
  ipVersion := .V4
  protocol := .Tcp
  srcAddr := .v4 10 0 0 1
  dstAddr := .v4 93 184 216 34
  srcPort := 55555
  dstPort := 80
  ipHeaderLen := 20
  transportHeaderLen := 20
  tcpFlags := some (TcpFlags.fromByte 0x18)
  ttl := 64
  ipId := some 1
  isFake := false

/-- Sanity: the concrete packet really is the parse of its bytes. -/
theorem tcpTestPacket_parse :
    Packet.fromBytes tcpTestData .Outbound = some tcpTestPacket := by decide

/-! ## C8: when does split fail? -/

/-- C8 (amended): `split_at_payload` returns an error exactly when the
offset is at least the payload length; an offset of zero on a non-empty
payload is accepted. -/
theorem C8_split_error_iff_offset_ge_payload (p : Packet) (offset : Nat) :
    p.splitAtPayload offset = none ↔ p.payload.length ≤ offset := by
  unfold Packet.splitAtPayload
  by_cases h : offset ≥ p.payload.length
  · simp [h]
  · simp [h]

/-- C8 counterexample: the claim "split fails when offset = 0" is false —
on a packet with an 18-byte payload, `split_at_payload(0)` succeeds. -/
theorem C8_counterexample_offset_zero_succeeds :
    tcpTestPacket.payloadLen = 18 ∧
    (tcpTestPacket.splitAtPayload 0).isSome = true := by decide

/-! ## C4: auto-TTL computation -/

/-- The auto-TTL computation as the specification words it: estimate the
source TTL (128 when `98 < t < 128`, 64 when `34 < t < 64`, otherwise
give up), hop count `h = estimate - t`, give up below `min_hops`,
candidate `max(0, h - a2)` refined for short distances by
`h - a1 - (a2 - a1) * h / 10`, capped at `max`, `None` when zero. -/
def autoTtlSpec (t a1 a2 mx minHops : Nat) : Option Nat :=
  let estimate? :=
    if 98 < t ∧ t < 128 then some 128
    else if 34 < t ∧ t < 64 then some 64
    else none
  match estimate? with
  | none => none
  | some estimate =>
    let h := estimate - t
    if h < minHops then none
    else
      let candidate := max 0 (h - a2)
      let refined :=
        if candidate < a2 ∧ h ≤ 9 then h - a1 - (a2 - a1) * h / 10
        else candidate
      let capped := min refined mx
      if capped = 0 then none else some capped

/-- C4: the strategy's `auto_ttl_calculate` computes exactly the
specification's function of the recorded SYN-ACK TTL and the parameters,
and in particular yields `Some 6` for `t = 118`, `a1 = 1`, `a2 = 4`,
`max = 10`, `min_hops = 3`. -/
theorem C4_auto_ttl_matches_spec (t a1 a2 mx mh : Nat) (ha : a1 ≤ a2) :
    (FakePacketStrategy.mk false false none none (some mh) 1).autoTtlCalculate t
        ⟨a1, a2, mx⟩ = autoTtlSpec t a1 a2 mx mh ∧
    (FakePacketStrategy.mk false false none none (some 3) 1).autoTtlCalculate 118
        ⟨1, 4, 10⟩ = some 6 := by
  refine ⟨?_, by decide⟩
  have inner : ∀ hh : Nat,
      FakePacketStrategy.autoTtlFrom (some mh) ⟨a1, a2, mx⟩ hh =
        (if hh < mh then none
         else
           let candidate := max 0 (hh - a2)
           let refined :=
             if candidate < a2 ∧ hh ≤ 9 then hh - a1 - (a2 - a1) * hh / 10
             else candidate
           let capped := min refined mx
           if capped = 0 then none else some capped) := by
    intro hh
    unfold FakePacketStrategy.autoTtlFrom
    simp only [Nat.zero_max, decide_eq_true_eq, Nat.min_def]
    generalize (a2 - a1) * hh / 10 = scale
    split_ifs <;> first
      | rfl
      | omega
  unfold FakePacketStrategy.autoTtlCalculate autoTtlSpec
  by_cases h1 : 98 < t ∧ t < 128
  · rw [if_pos h1, if_pos h1]
    exact inner (128 - t)
  · by_cases h2 : 34 < t ∧ t < 64
    · rw [if_neg h1, if_pos h2, if_neg h1, if_pos h2]
      exact inner (64 - t)
    · rw [if_neg h1, if_neg h2, if_neg h1, if_neg h2]

/-- C4 witness: the theorem applied at `t = 118`, `a1 = 1`, `a2 = 4`,
`max = 10`, `min_hops = 3`. -/
theorem C4_auto_ttl_matches_spec_witness :
    (1 ≤ 4) ∧
    ((FakePacketStrategy.mk false false none none (some 3) 1).autoTtlCalculate 118
        ⟨1, 4, 10⟩ = autoTtlSpec 118 1 4 10 3 ∧
      (FakePacketStrategy.mk false false none none (some 3) 1).autoTtlCalculate 118
        ⟨1, 4, 10⟩ = some 6) :=
  ⟨by decide, C4_auto_ttl_matches_spec 118 1 4 10 3 (by decide)⟩

/-! ## C6: QUIC Initial drop -/

/-- C6: for an outbound UDP packet to port 443 with at least 1200 bytes of
payload whose first byte has both high bits set, `should_apply` holds;
`apply` drops the packet and bumps `quic_blocked` by one exactly when the
version field (payload bytes 1..5, big-endian) is 0 or 1, and otherwise
passes the packet unchanged. -/
theorem C6_quic_initial_drop (p : Packet) (ctx : Context)
    (hdir : p.direction = .Outbound) (hudp : p.protocol = .Udp)
    (hport : p.dstPort = 443) (hlen : 1200 ≤ p.payloadLen)
    (hb0 : 0xC0 ≤ getB p.payload 0) :
    QuicBlockStrategy.shouldApply QuicBlockStrategy.new p ctx = true ∧
    ((be32 p.payload 1 = 0 ∨ be32 p.payload 1 = 1) →
      QuicBlockStrategy.apply QuicBlockStrategy.new p ctx =
        some (.Drop, { ctx with stats :=
          { ctx.stats with quicBlocked := ctx.stats.quicBlocked + 1 } })) ∧
    (¬ (be32 p.payload 1 = 0 ∨ be32 p.payload 1 = 1) →
      QuicBlockStrategy.apply QuicBlockStrategy.new p ctx =
        some (.Pass p, ctx)) := by
  have hout : p.isOutbound = true := by simp [Packet.isOutbound, hdir]
  have hisudp : p.isUdp = true := by simp [Packet.isUdp, hudp]
  have hinit : QuicBlockStrategy.isQuicInitial QuicBlockStrategy.new p =
      (decide (be32 p.payload 1 = 1) || decide (be32 p.payload 1 = 0)) := by
    unfold QuicBlockStrategy.isQuicInitial QuicBlockStrategy.new
    have hlen2 : ¬ p.payload.length < 1200 := by
      unfold Packet.payloadLen at hlen; omega
    have hb0n : ¬ getB p.payload 0 < 0xC0 := by omega
    have h5 : 5 ≤ p.payload.length := by
      unfold Packet.payloadLen at hlen; omega
    simp only [hlen2, ite_false, hb0n, h5, ite_true]
    by_cases hv : be32 p.payload 1 = 1 ∨ be32 p.payload 1 = 0 <;>
      rcases Nat.decEq (be32 p.payload 1) 1 with h1 | h1 <;>
        rcases Nat.decEq (be32 p.payload 1) 0 with h0 | h0 <;>
          simp_all
  refine ⟨?_, ?_, ?_⟩
  · unfold QuicBlockStrategy.shouldApply QuicBlockStrategy.new
    simp [hout, hisudp, hport, hlen]
  · intro hv
    unfold QuicBlockStrategy.apply
    rw [hinit]
    have : (decide (be32 p.payload 1 = 1) || decide (be32 p.payload 1 = 0)) = true := by
      rcases hv with hv | hv <;> simp [hv]
    rw [this]
    rfl
  · intro hv
    unfold QuicBlockStrategy.apply
    rw [hinit]
    have : (decide (be32 p.payload 1 = 1) || decide (be32 p.payload 1 = 0)) = false := by
      push_neg at hv
      simp [hv.1, hv.2]
    rw [this]
    rfl

/-- An outbound IPv4 UDP packet to port 443 whose 1200-byte payload starts
with `C1 00 00 00 01` — a QUIC version-1 Initial. -/
def quicTestData : List Nat :=
  [0x45, 0x00, 0x04, 0xCC, 0x00, 0x01, 0x00, 0x00,
   0x40, 0x11, 0x00, 0x00, 0x0A, 0x00, 0x00, 0x01,
   0x5D, 0xB8, 0xD8, 0x22,
   0xD9, 0x03, 0x01, 0xBB,
   0x04, 0xB8, 0x00, 0x00] ++
    (0xC1 :: 0x00 :: 0x00 :: 0x00 :: 0x01 :: List.replicate 1195 0)

/-- The parse of `quicTestData`. -/
def quicTestPacket : Packet where
  data := quicTestData
  direction := .Outbound
  ipVersion := .V4
  protocol := .Udp
  srcAddr := .v4 10 0 0 1
  dstAddr := .v4 93 184 216 34
  srcPort := 55555
  dstPort := 443
  ipHeaderLen := 20
  transportHeaderLen := 8
  tcpFlags := none
  ttl := 64
  ipId := some 1
  isFake := false

set_option maxRecDepth 100000 in
/-- C6 witness: the theorem applied to a concrete QUIC version-1 Initial. -/
theorem C6_quic_initial_drop_witness :
    QuicBlockStrategy.shouldApply QuicBlockStrategy.new quicTestPacket Context.new = true ∧
    ((be32 quicTestPacket.payload 1 = 0 ∨ be32 quicTestPacket.payload 1 = 1) →
      QuicBlockStrategy.apply QuicBlockStrategy.new quicTestPacket Context.new =
        some (.Drop, { Context.new with stats :=
          { Context.new.stats with quicBlocked := Context.new.stats.quicBlocked + 1 } })) ∧
    (¬ (be32 quicTestPacket.payload 1 = 0 ∨ be32 quicTestPacket.payload 1 = 1) →
      QuicBlockStrategy.apply QuicBlockStrategy.new quicTestPacket Context.new =
        some (.Pass quicTestPacket, Context.new)) :=
  C6_quic_initial_drop quicTestPacket Context.new (by decide) (by decide) (by decide)
    (by decide) (by decide)

/-! ## C5: the pipeline preserves unmatched packets -/

/-- C5: when every enabled strategy declines the packet, `process` returns
exactly the singleton list of the unchanged input packet (and the context
changes only by the processed-packets counter).  Because no strategy
applies, the context never changes inside the strategy loops, so
declining the one packet under the initial context is the whole
hypothesis. -/
theorem C5_pipeline_preserves_unmatched (strategies : List Strategy)
    (p : Packet) (ctx : Context)
    (h : ∀ s ∈ strategies, s.enabled = true → s.shouldApply p ctx = false) :
    Pipeline.process strategies p ctx =
      some ([p], { ctx with stats :=
        { ctx.stats with packetsProcessed := ctx.stats.packetsProcessed + 1 } }) := by
  have key : ∀ ss : List Strategy,
      (∀ s ∈ ss, s.enabled = true → s.shouldApply p ctx = false) →
      pipelineRun ss [p] ctx = some ([p], ctx) := by
    intro ss
    induction ss with
    | nil => intro _; rfl
    | cons s rest ih =>
      intro hh
      have htail := fun s2 hs2 => hh s2 (List.mem_cons_of_mem _ hs2)
      by_cases he : s.enabled
      · have hsa : s.shouldApply p ctx = false :=
          hh s (List.mem_cons_self _ _) he
        have hrun : runStrategyOver s [p] ctx = some ([p], ctx) := by
          unfold runStrategyOver
          rw [hsa]
          rfl
        unfold pipelineRun
        rw [if_pos he, hrun]
        simpa using ih htail
      · unfold pipelineRun
        rw [if_neg he]
        exact ih htail
  unfold Pipeline.process
  rw [key strategies h]

/-- An always-enabled strategy that never applies (its `apply` passes). -/
def neverStrategy : Strategy where
  name := "never"
  priority := 100
  enabled := true
  shouldApply := fun _ _ => false
  apply := fun p ctx => some (.Pass p, ctx)

/-- C5 witness: the theorem applied to a one-strategy pipeline that
declines the concrete test packet. -/
theorem C5_pipeline_preserves_unmatched_witness :
    (∀ s ∈ [neverStrategy], s.enabled = true →
      s.shouldApply tcpTestPacket Context.new = false) ∧
    Pipeline.process [neverStrategy] tcpTestPacket Context.new =
      some ([tcpTestPacket], { Context.new with stats :=
        { Context.new.stats with packetsProcessed :=
          Context.new.stats.packetsProcessed + 1 } }) := by
  have hdecl : ∀ s ∈ [neverStrategy], s.enabled = true →
      s.shouldApply tcpTestPacket Context.new = false := by
    intro s hs hen
    rcases List.mem_singleton.mp hs with rfl
    rfl
  exact ⟨hdecl,
    C5_pipeline_preserves_unmatched [neverStrategy] tcpTestPacket Context.new hdecl⟩

/-! ## C10: blacklist filtering with no extractable hostname -/

/-- C10: an outbound TCP packet that qualifies for the fake-packet and
fragmentation strategies but from which neither an HTTP Host nor an SNI
can be extracted is still transformed when blacklist filtering is
enabled — both `should_apply` functions return true; and with blacklist
filtering disabled, `is_blacklisted` holds of every hostname. -/
theorem C10_unextractable_hostname_still_applies (p : Packet) (ctx : Context)
    (hbl : ctx.blacklistEnabled = true)
    (hdir : p.direction = .Outbound) (hproto : p.protocol = .Tcp)
    (hpl : p.payloadLen ≠ 0) (hfake : p.isFake = false)
    (hq : (p.dstPort = 80 ∧ p.isHttpRequest = true) ∨
      (p.dstPort = 443 ∧ p.isTlsClientHello = true))
    (hhost : p.extractHttpHost = none) (hsni : p.extractSni = none) :
    FakePacketStrategy.v2ShouldApply p ctx = true ∧
    FragmentationStrategy.shouldApply p ctx = true ∧
    (∀ (ctx2 : Context) (hostname : List Nat),
      ctx2.blacklistEnabled = false → ctx2.isBlacklisted hostname = true) := by
  have hout : p.isOutbound = true := by simp [Packet.isOutbound, hdir]
  have htcp : p.isTcp = true := by simp [Packet.isTcp, hproto]
  refine ⟨?_, ?_, ?_⟩
  · unfold FakePacketStrategy.v2ShouldApply
    rcases hq with ⟨hp80, hreq⟩ | ⟨hp443, hhello⟩
    · simp [hout, htcp, hpl, hp80, hreq, hbl, hhost]
    · by_cases hreq : p.isHttpRequest = true
      · simp [hout, htcp, hpl, hp443, hhello, hreq, hbl, hhost, hsni]
      · simp only [Bool.not_eq_true] at hreq
        simp [hout, htcp, hpl, hp443, hhello, hreq, hbl, hhost, hsni]
  · unfold FragmentationStrategy.shouldApply FragmentationStrategy.extractHostname
    rcases hq with ⟨hp80, hreq⟩ | ⟨hp443, hhello⟩
    · simp [hfake, hout, htcp, hpl, hp80, hreq, hbl, hhost]
    · by_cases hreq : p.isHttpRequest = true
      · simp [hfake, hout, htcp, hpl, hp443, hhello, hreq, hbl, hhost, hsni]
      · simp only [Bool.not_eq_true] at hreq
        simp [hfake, hout, htcp, hpl, hp443, hhello, hreq, hbl, hhost, hsni]
  · intro ctx2 hostname h2
    unfold Context.isBlacklisted
    simp [h2]

/-- A context with blacklist filtering enabled and one blacklisted domain
(`"blocked.example"`). -/
def blacklistCtx : Context where
  stats := Stats.default
  blacklistEnabled := true
  blacklist := ["blocked.example".data.map Char.toNat]
  tcpTable := []
  dnsTable := []

/-- C10 witness: the theorem applied to the concrete Host-less HTTP request
packet under the enabled-blacklist context. -/
theorem C10_unextractable_hostname_still_applies_witness :
    FakePacketStrategy.v2ShouldApply tcpTestPacket blacklistCtx = true ∧
    FragmentationStrategy.shouldApply tcpTestPacket blacklistCtx = true ∧
    (∀ (ctx2 : Context) (hostname : List Nat),
      ctx2.blacklistEnabled = false → ctx2.isBlacklisted hostname = true) :=
  C10_unextractable_hostname_still_applies tcpTestPacket blacklistCtx (by decide)
    (by decide) (by decide) (by decide) (by decide)
    (Or.inl ⟨by decide, by decide⟩) (by decide) (by decide)

/-! ## C9: domain-filter matching -/

/-- Strip `n` leading labels (the claim's "zero or more"); once no dot is
left the hostname itself is the last reachable suffix. -/
def stripLabels : Nat → List Nat → List Nat
  | 0, s => s
  | n + 1, s =>
    match dropLabelB s with
    | some s2 => stripLabels n s2
    | none => s

theorem stripLabels_of_no_dot {s : List Nat} (h : dropLabelB s = none) :
    ∀ n, stripLabels n s = s := by
  intro n
  cases n with
  | zero => rfl
  | succ n => simp [stripLabels, h]

theorem wildcardLoop_of_contains (wl : List (List Nat)) (s : List Nat)
    (h : wl.contains s = true) : DomainFilter.wildcardLoop wl s = true := by
  unfold DomainFilter.wildcardLoop
  rw [if_pos h]

theorem wildcardLoop_none (wl : List (List Nat)) (s : List Nat)
    (hc : ¬ wl.contains s = true) (hd : dropLabelB s = none) :
    DomainFilter.wildcardLoop wl s = false := by
  unfold DomainFilter.wildcardLoop
  rw [if_neg hc]
  split
  · next next heq => rw [hd] at heq; cases heq
  · rfl

theorem wildcardLoop_some (wl : List (List Nat)) (s s3 : List Nat)
    (hc : ¬ wl.contains s = true) (hd : dropLabelB s = some s3) :
    DomainFilter.wildcardLoop wl s = DomainFilter.wildcardLoop wl s3 := by
  conv_lhs => unfold DomainFilter.wildcardLoop
  rw [if_neg hc]
  split
  · next next heq =>
    rw [hd] at heq
    injection heq with h2
    rw [h2]
  · next heq => rw [hd] at heq; cases heq

/-- The wildcard loop accepts a hostname exactly when some suffix reached
by stripping leading labels is in the wildcard set. -/
theorem wildcardLoop_iff_exists (wl : List (List Nat)) (s : List Nat) :
    DomainFilter.wildcardLoop wl s = true ↔
      ∃ n, wl.contains (stripLabels n s) = true := by
  have main : ∀ N s2, List.length s2 ≤ N →
      (DomainFilter.wildcardLoop wl s2 = true ↔
        ∃ n, wl.contains (stripLabels n s2) = true) := by
    intro N
    induction N with
    | zero =>
      intro s2 hs2
      have hnil : s2 = [] := List.eq_nil_of_length_eq_zero (Nat.le_zero.mp hs2)
      subst hnil
      by_cases hc : wl.contains ([] : List Nat) = true
      · rw [wildcardLoop_of_contains wl [] hc]
        exact ⟨fun _ => ⟨0, hc⟩, fun _ => rfl⟩
      · rw [wildcardLoop_none wl [] hc (by rfl)]
        constructor
        · intro h; cases h
        · rintro ⟨n, hn⟩
          rw [stripLabels_of_no_dot (s := []) rfl] at hn
          exact absurd hn hc
    | succ N ih =>
      intro s2 hs2
      by_cases hc : wl.contains s2 = true
      · rw [wildcardLoop_of_contains wl s2 hc]
        exact ⟨fun _ => ⟨0, hc⟩, fun _ => rfl⟩
      · cases hd : dropLabelB s2 with
        | none =>
          rw [wildcardLoop_none wl s2 hc hd]
          constructor
          · intro h; cases h
          · rintro ⟨n, hn⟩
            rw [stripLabels_of_no_dot hd] at hn
            exact absurd hn hc
        | some s3 =>
          have hlen : s3.length ≤ N := by
            have := dropLabelB_length hd
            omega
          rw [wildcardLoop_some wl s2 s3 hc hd, ih s3 hlen]
          constructor
          · rintro ⟨n, hn⟩
            refine ⟨n + 1, ?_⟩
            simpa [stripLabels, hd] using hn
          · rintro ⟨n, hn⟩
            cases n with
            | zero => exact absurd hn hc
            | succ n =>
              refine ⟨n, ?_⟩
              simpa [stripLabels, hd] using hn
  exact main s.length s (Nat.le_refl _)

theorem lowerBytes_idem (s : List Nat) : lowerBytes (lowerBytes s) = lowerBytes s := by
  induction s with
  | nil => rfl
  | cons b t ih =>
    unfold lowerBytes at *
    simp only [List.map_cons, List.cons.injEq]
    exact ⟨by split_ifs <;> omega, ih⟩

theorem dropWhile_lowerBytes (s : List Nat) :
    (lowerBytes s).dropWhile isWsByte = lowerBytes (s.dropWhile isWsByte) := by
  induction s with
  | nil => rfl
  | cons b t ih =>
    unfold lowerBytes at *
    simp only [List.map_cons, List.dropWhile_cons]
    have hws : isWsByte (if 65 ≤ b ∧ b ≤ 90 then b + 32 else b) = isWsByte b := by
      unfold isWsByte
      rw [decide_eq_decide]
      split_ifs <;> omega
    rw [hws]
    by_cases hb : isWsByte b = true
    · simp only [hb, ite_true]
      exact ih
    · simp only [Bool.not_eq_true] at hb
      simp [hb]

theorem reverse_lowerBytes (s : List Nat) :
    (lowerBytes s).reverse = lowerBytes s.reverse := by
  unfold lowerBytes
  exact (List.map_reverse _ _).symm

theorem trimBytes_lowerBytes (s : List Nat) :
    trimBytes (lowerBytes s) = lowerBytes (trimBytes s) := by
  unfold trimBytes
  rw [dropWhile_lowerBytes, reverse_lowerBytes, dropWhile_lowerBytes,
    reverse_lowerBytes]

/-- C9: `matches` holds exactly when the exact set contains the lowercased
hostname or some suffix reached by stripping leading labels is in the
wildcard set; lookups lowercase the hostname, and `add_domain` inserts
the same entries for a domain and for its lowercasing. -/
theorem C9_domain_filter_matches (f : DomainFilter) (hostname : List Nat) :
    (f.«matches» hostname = true ↔
      f.exactDomains.contains (lowerBytes hostname) = true ∨
        ∃ n, f.wildcardDomains.contains (stripLabels n (lowerBytes hostname)) = true) ∧
    f.«matches» hostname = f.«matches» (lowerBytes hostname) ∧
    (∀ (g : DomainFilter) (d : List Nat), g.addDomain d = g.addDomain (lowerBytes d)) := by
  refine ⟨?_, ?_, ?_⟩
  · unfold DomainFilter.«matches»
    by_cases hex : f.exactDomains.contains (lowerBytes hostname) = true
    · rw [if_pos hex]
      exact ⟨fun _ => Or.inl hex, fun _ => rfl⟩
    · rw [if_neg hex]
      by_cases hl : DomainFilter.wildcardLoop f.wildcardDomains (lowerBytes hostname) = true
      · rw [if_pos hl]
        exact ⟨fun _ => Or.inr ((wildcardLoop_iff_exists _ _).mp hl), fun _ => rfl⟩
      · rw [if_neg hl]
        have hcon : ¬ f.wildcardDomains.contains (lowerBytes hostname) = true :=
          fun hcc => hl (wildcardLoop_of_contains _ _ hcc)
        rw [if_neg hcon]
        constructor
        · intro h; cases h
        · rintro (h | ⟨n, h⟩)
          · exact absurd h hex
          · exact absurd ((wildcardLoop_iff_exists _ _).mpr ⟨n, h⟩) hl
  · unfold DomainFilter.«matches»
    rw [lowerBytes_idem]
  · intro g d
    unfold DomainFilter.addDomain
    rw [trimBytes_lowerBytes, lowerBytes_idem]

/-! ## C7: DNS redirection -/

/-- After a replace-on-insert, the table holds exactly one entry under the
inserted key. -/
theorem upsert_unique_key (t : List (Nat × (IpAddress × Nat))) (k : Nat)
    (v : IpAddress × Nat) :
    (((k, v) :: t.filter fun e => decide (e.1 ≠ k)).filter
      (fun e => decide (e.1 = k))).length = 1 := by
  rw [List.filter_cons]
  rw [if_pos (by simp)]
  have hnil : (t.filter fun e => decide (e.1 ≠ k)).filter
      (fun e => decide (e.1 = k)) = [] := by
    rw [List.filter_filter]
    rw [List.filter_eq_nil_iff]
    intro a ha
    simp only [Bool.and_eq_true, decide_eq_true_eq, not_and]
    intro h1 h2
    exact h2 h1
  rw [hnil]
  rfl

/-- C7 (amended): on an outbound IPv4 UDP DNS query to port 53, `apply`
stores the original destination under the source port (and that is the
table's only entry for that key), rewrites the destination address and
port bytes in place to the configured upstream resolver, bumps
`dns_redirected`, and passes the packet on.  The checksum fields are
left untouched (the claimed zeroing does not happen). -/
theorem C7_dns_redirect (s : DnsRedirectStrategy) (p : Packet) (ctx : Context)
    (hdir : p.direction = .Outbound) (hudp : p.protocol = .Udp)
    (hport : p.dstPort = 53) (hv4 : p.ipVersion = .V4)
    (hquery : DnsRedirectStrategy.isDnsQuery p.payload = true)
    (hihl : getB p.data 0 % 16 * 4 = p.ipHeaderLen)
    (h20 : 20 ≤ p.ipHeaderLen) (hlen : p.ipHeaderLen + 8 ≤ p.data.length)
    (hps : s.upstreamPort < 65536) :
    DnsRedirectStrategy.shouldApply p ctx = true ∧
    ∃ p2 ctx2, DnsRedirectStrategy.apply s p ctx = some (.Pass p2, ctx2) ∧
      ctx2.dnsGetOriginal p.srcPort = some (p.dstAddr, p.dstPort) ∧
      (ctx2.dnsTable.filter fun e => decide (e.1 = p.srcPort)).length = 1 ∧
      getB p2.data 16 = s.upstreamAddr.1 ∧
      getB p2.data 17 = s.upstreamAddr.2.1 ∧
      getB p2.data 18 = s.upstreamAddr.2.2.1 ∧
      getB p2.data 19 = s.upstreamAddr.2.2.2 ∧
      be16 p2.data (p.ipHeaderLen + 2) = s.upstreamPort ∧
      ctx2.stats.dnsRedirected = ctx.stats.dnsRedirected + 1 := by
  obtain ⟨⟨o0, o1, o2, o3⟩, port⟩ := s
  have hout : p.isOutbound = true := by simp [Packet.isOutbound, hdir]
  have hisudp : p.isUdp = true := by simp [Packet.isUdp, hudp]
  have hisv4 : p.isIpv4 = true := by simp [Packet.isIpv4, hv4]
  have hplen : 28 ≤ p.data.length := by omega
  have hd1zero :
      getB ((((p.data.set 16 o0).set 17 o1).set 18 o2).set 19 o3) 0 = getB p.data 0 := by
    rw [getB_set_ne _ 19 0 _ (by omega), getB_set_ne _ 18 0 _ (by omega),
      getB_set_ne _ 17 0 _ (by omega), getB_set_ne _ 16 0 _ (by omega)]
  have hredir : (DnsRedirectStrategy.redirectPacket ⟨(o0, o1, o2, o3), port⟩ p).data =
      (((((p.data.set 16 o0).set 17 o1).set 18 o2).set 19 o3).set
          (p.ipHeaderLen + 2) (port / 256 % 256)).set (p.ipHeaderLen + 3) (port % 256) := by
    unfold DnsRedirectStrategy.redirectPacket
    simp only
    rw [hd1zero, hihl]
  refine ⟨?_, ?_⟩
  · unfold DnsRedirectStrategy.shouldApply
    simp [hout, hisudp, hport, hisv4]
  · refine ⟨DnsRedirectStrategy.redirectPacket ⟨(o0, o1, o2, o3), port⟩ p,
      { (ctx.dnsTrackQuery p.srcPort p.dstAddr p.dstPort) with stats :=
        { (ctx.dnsTrackQuery p.srcPort p.dstAddr p.dstPort).stats with dnsRedirected :=
            (ctx.dnsTrackQuery p.srcPort p.dstAddr p.dstPort).stats.dnsRedirected + 1 } },
      ?_, ?_, ?_, ?_, ?_, ?_, ?_, ?_, ?_⟩
    · unfold DnsRedirectStrategy.apply
      rw [if_neg (by simp [hquery])]
    · simp [Context.dnsGetOriginal, Context.dnsTrackQuery]
    · exact upsert_unique_key ctx.dnsTable p.srcPort (p.dstAddr, p.dstPort)
    · rw [hredir, getB_set_ne _ (p.ipHeaderLen + 3) 16 _ (by omega),
        getB_set_ne _ (p.ipHeaderLen + 2) 16 _ (by omega),
        getB_set_ne _ 19 16 _ (by omega), getB_set_ne _ 18 16 _ (by omega),
        getB_set_ne _ 17 16 _ (by omega)]
      exact getB_set_self _ 16 _ (by omega)
    · rw [hredir, getB_set_ne _ (p.ipHeaderLen + 3) 17 _ (by omega),
        getB_set_ne _ (p.ipHeaderLen + 2) 17 _ (by omega),
        getB_set_ne _ 19 17 _ (by omega), getB_set_ne _ 18 17 _ (by omega)]
      exact getB_set_self _ 17 _ (by simp only [List.length_set]; omega)
    · rw [hredir, getB_set_ne _ (p.ipHeaderLen + 3) 18 _ (by omega),
        getB_set_ne _ (p.ipHeaderLen + 2) 18 _ (by omega),
        getB_set_ne _ 19 18 _ (by omega)]
      exact getB_set_self _ 18 _ (by simp only [List.length_set]; omega)
    · rw [hredir, getB_set_ne _ (p.ipHeaderLen + 3) 19 _ (by omega),
        getB_set_ne _ (p.ipHeaderLen + 2) 19 _ (by omega)]
      exact getB_set_self _ 19 _ (by simp only [List.length_set]; omega)
    · unfold be16
      change _ = port
      have hps2 : port < 65536 := hps
      rw [show p.ipHeaderLen + 2 + 1 = p.ipHeaderLen + 3 from rfl]
      rw [hredir]
      have hi3 : getB ((((((p.data.set 16 o0).set 17 o1).set 18 o2).set 19 o3).set
          (p.ipHeaderLen + 2) (port / 256 % 256)).set (p.ipHeaderLen + 3) (port % 256))
            (p.ipHeaderLen + 3) = port % 256 :=
        getB_set_self _ _ _ (by simp only [List.length_set]; omega)
      have hi2 : getB ((((((p.data.set 16 o0).set 17 o1).set 18 o2).set 19 o3).set
          (p.ipHeaderLen + 2) (port / 256 % 256)).set (p.ipHeaderLen + 3) (port % 256))
            (p.ipHeaderLen + 2) = port / 256 % 256 := by
        rw [getB_set_ne _ (p.ipHeaderLen + 3) (p.ipHeaderLen + 2) _ (by omega)]
        exact getB_set_self _ _ _ (by simp only [List.length_set]; omega)
      rw [hi2, hi3]
      omega
    · rfl

/-- An outbound IPv4 UDP DNS query: src port 50000, destination
192.0.2.53:53, nonzero IP checksum bytes (0xAB 0xCD at 10..11) and UDP
checksum bytes (0xEE 0xFF at 26..27), and a 12-byte standard-query DNS
header. -/
def dnsTestData : List Nat :=
  [0x45, 0x00, 0x00, 0x28, 0x00, 0x01, 0x00, 0x00,
   0x40, 0x11, 0xAB, 0xCD, 0x0A, 0x00, 0x00, 0x01,
   0xC0, 0x00, 0x02, 0x35,
   0xC3, 0x50, 0x00, 0x35,
   0x00, 0x14, 0xEE, 0xFF,
   0x12, 0x34, 0x01, 0x00, 0x00, 0x01, 0x00, 0x00, 0x00, 0x00, 0x00, 0x00]

/-- The parse of `dnsTestData`. -/
def dnsTestPacket : Packet where
  data := dnsTestData
  direction := .Outbound
  ipVersion := .V4
  protocol := .Udp
  srcAddr := .v4 10 0 0 1
  dstAddr := .v4 192 0 2 53
  srcPort := 50000
  dstPort := 53
  ipHeaderLen := 20
  transportHeaderLen := 8
  tcpFlags := none
  ttl := 64
  ipId := some 1
  isFake := false

/-- The Yandex upstream resolver configuration `77.88.8.8:53`. -/
def dnsStratYandex : DnsRedirectStrategy := ⟨(77, 88, 8, 8), 53⟩

/-- Project the packet out of a `Pass` action result. -/
def passedPacket : Option (StrategyAction × Context) → Option Packet
  | some (.Pass p, _) => some p
  | _ => none

/-- C7 counterexample: the claim also asserts the checksum fields are
zeroed, but after `apply` the IP checksum bytes (10..11) and UDP
checksum bytes (26..27) still hold their original nonzero values. -/
theorem C7_counterexample_checksums_not_zeroed :
    (passedPacket (DnsRedirectStrategy.apply dnsStratYandex dnsTestPacket
        Context.new)).map
      (fun q => (getB q.data 10, getB q.data 11, getB q.data 26, getB q.data 27)) =
      some (0xAB, 0xCD, 0xEE, 0xFF) ∧
    (passedPacket (DnsRedirectStrategy.apply dnsStratYandex dnsTestPacket
        Context.new)).map (fun q => getB q.data 10) ≠ some 0 := by decide

/-- C7 witness: the amended theorem applied to the concrete DNS query and
the Yandex resolver configuration. -/
theorem C7_dns_redirect_witness :
    DnsRedirectStrategy.shouldApply dnsTestPacket Context.new = true ∧
    ∃ p2 ctx2, DnsRedirectStrategy.apply dnsStratYandex dnsTestPacket Context.new =
        some (.Pass p2, ctx2) ∧
      ctx2.dnsGetOriginal dnsTestPacket.srcPort =
        some (dnsTestPacket.dstAddr, dnsTestPacket.dstPort) ∧
      (ctx2.dnsTable.filter fun e => decide (e.1 = dnsTestPacket.srcPort)).length = 1 ∧
      getB p2.data 16 = dnsStratYandex.upstreamAddr.1 ∧
      getB p2.data 17 = dnsStratYandex.upstreamAddr.2.1 ∧
      getB p2.data 18 = dnsStratYandex.upstreamAddr.2.2.1 ∧
      getB p2.data 19 = dnsStratYandex.upstreamAddr.2.2.2 ∧
      be16 p2.data (dnsTestPacket.ipHeaderLen + 2) = dnsStratYandex.upstreamPort ∧
      ctx2.stats.dnsRedirected = Context.new.stats.dnsRedirected + 1 :=
  C7_dns_redirect dnsStratYandex dnsTestPacket Context.new (by decide) (by decide)
    (by decide) (by decide) (by decide) (by decide) (by decide) (by decide) (by decide)

/-! ## C2 and C3: v2 decoy construction -/

/-- The fake-packet configuration of spec scenario B: `wrong_seq` only,
`resend_count` 1, no fixed or auto TTL. -/
def fpCfgWrongSeq : FakePacketStrategy :=
  ⟨false, true, none, none, some 3, 1⟩

/-- Project the decoy list out of an `InjectBefore` action result. -/
def injectedBefore : Option (StrategyAction × Context) → List Packet
  | some (.InjectBefore l _, _) => l
  | _ => []

/-- Project the original packet out of an `InjectBefore` action result. -/
def injectedOriginal : Option (StrategyAction × Context) → Option Packet
  | some (.InjectBefore _ o, _) => some o
  | _ => none

/-- The v2 fake-packet `apply` on the concrete HTTP request under
scenario B's configuration. -/
def fpResultWrongSeq : Option (StrategyAction × Context) :=
  FakePacketStrategy.v2Apply fpCfgWrongSeq tcpTestPacket Context.new

/-- C3: evaluated at scenario B's input, the v2 `apply` does return
`InjectBefore` with exactly one decoy carrying the original 5-tuple and
the shifted SEQ/ACK (4096 − 10000 and 8192 − 66000 mod 2³²) — but the
decoy keeps the original payload instead of the benign
GET-to-www.w3.org template, and its `is_fake` is false. -/
theorem C3_v2_decoy_keeps_original_payload :
    (injectedBefore fpResultWrongSeq).length = 1 ∧
    injectedOriginal fpResultWrongSeq = some tcpTestPacket ∧
    (injectedBefore fpResultWrongSeq).map
        (fun d => (d.srcAddr, d.srcPort, d.dstAddr, d.dstPort, d.protocol)) =
      [(tcpTestPacket.srcAddr, tcpTestPacket.srcPort, tcpTestPacket.dstAddr,
        tcpTestPacket.dstPort, tcpTestPacket.protocol)] ∧
    (injectedBefore fpResultWrongSeq).map Packet.tcpSeq = [some 4294961392] ∧
    (injectedBefore fpResultWrongSeq).map Packet.tcpAckNum = [some 4294909488] ∧
    (injectedBefore fpResultWrongSeq).map Packet.payload = [tcpTestPacket.payload] ∧
    (injectedBefore fpResultWrongSeq).map Packet.payload ≠ [fakeHttpPayload] ∧
    (injectedBefore fpResultWrongSeq).map Packet.isFake = [false] := by decide

/-- C2: evaluated at the same failing input, the decoy's `is_fake` is
false and the fragmentation strategy's `should_apply` returns true on
it — the decoy would be re-fragmented, contrary to the claim. -/
theorem C2_v2_decoy_unmarked_and_refragmentable :
    (injectedBefore fpResultWrongSeq).map Packet.isFake = [false] ∧
    (injectedBefore fpResultWrongSeq).map
        (fun d => FragmentationStrategy.shouldApply d Context.new) = [true] := by decide

/-! The older tree's `create_fake_packet` behaves as the claims say:
every decoy it builds carries `is_fake = true`, and the fragmentation
strategy therefore always declines it. -/

theorem isFake_setTtl (p : Packet) (t : Nat) : (p.setTtl t).isFake = p.isFake := by
  unfold Packet.setTtl
  cases h : p.ipVersion <;> simp

theorem isFake_setTcpSeq (p : Packet) (v : Nat) :
    (p.setTcpSeq v).isFake = p.isFake := by
  unfold Packet.setTcpSeq
  split <;> rfl

theorem isFake_setTcpAck (p : Packet) (v : Nat) :
    (p.setTcpAck v).isFake = p.isFake := by
  unfold Packet.setTcpAck
  split <;> rfl

theorem isFake_zeroChecksums (p : Packet) : p.zeroChecksums.isFake = p.isFake := rfl

theorem isFake_oldCreateFakePacket (orig : Packet) (pl : List Nat) (ttl : Nat)
    (ws : Bool) :
    (FakePacketStrategy.oldCreateFakePacket orig pl ttl ws).isFake = true := by
  unfold FakePacketStrategy.oldCreateFakePacket
  rw [isFake_zeroChecksums]
  cases ws
  · simp only [Bool.false_eq_true, ite_false]
    rw [isFake_setTtl]
  · simp only [ite_true]
    split
    · rw [isFake_setTcpAck]
      split
      · rw [isFake_setTcpSeq, isFake_setTtl]
      · rw [isFake_setTtl]
    · split
      · rw [isFake_setTcpSeq, isFake_setTtl]
      · rw [isFake_setTtl]

theorem oldTree_decoys_never_refragmented (orig : Packet) (pl : List Nat)
    (ttl : Nat) (ws : Bool) (ctx : Context) :
    FragmentationStrategy.shouldApply
      (FakePacketStrategy.oldCreateFakePacket orig pl ttl ws) ctx = false := by
  unfold FragmentationStrategy.shouldApply
  simp [isFake_oldCreateFakePacket]

/-! ## C1: split correctness -/

theorem getB_drop_append (hdr X : List Nat) (n : Nat) (hn : hdr.length = n) :
    (hdr ++ X).drop n = X :=
  List.drop_left' hn

theorem drop_set_lt (l : List Nat) (m v n : Nat) (h : m < n) :
    (l.set m v).drop n = l.drop n := by
  rw [List.drop_set, if_pos h]

theorem drop_writeBE32_lt (l : List Nat) (i v n : Nat) (h : i + 4 ≤ n) :
    (writeBE32 l i v).drop n = l.drop n := by
  unfold writeBE32
  rw [drop_set_lt _ _ _ _ (by omega), drop_set_lt _ _ _ _ (by omega),
    drop_set_lt _ _ _ _ (by omega), drop_set_lt _ _ _ _ (by omega)]

theorem be32_set_high (l : List Nat) (x y i : Nat) (h : 3 < i) :
    be32 ((l.set 2 x).set 3 y) i = be32 l i := by
  unfold be32
  rw [getB_set_ne _ 3 i _ (by omega), getB_set_ne _ 2 i _ (by omega),
    getB_set_ne _ 3 (i + 1) _ (by omega), getB_set_ne _ 2 (i + 1) _ (by omega),
    getB_set_ne _ 3 (i + 2) _ (by omega), getB_set_ne _ 2 (i + 2) _ (by omega),
    getB_set_ne _ 3 (i + 3) _ (by omega), getB_set_ne _ 2 (i + 3) _ (by omega)]

/-- C1: for a TCP IPv4 packet with payload length `L` and `0 < k < L`,
`split_at_payload` succeeds; the first fragment carries `payload[..k]`
and the second `payload[k..]`; the first keeps the sequence number and
the second's is incremented by `k` mod 2³²; both fragments keep the IP
and transport header bytes except the rewritten total-length field
(bytes 2..3) and, in the second fragment, the rewritten sequence field;
and both total-length fields equal the fragment's own buffer length. -/
theorem C1_split_at_payload_correct (p : Packet) (L k : Nat)
    (hproto : p.protocol = .Tcp) (hv : p.ipVersion = .V4)
    (hihl : 20 ≤ p.ipHeaderLen) (hthl : 20 ≤ p.transportHeaderLen)
    (hlen : p.data.length = p.ipHeaderLen + p.transportHeaderLen + L)
    (hsz : p.data.length < 2 ^ 16) (hk0 : 0 < k) (hkL : k < L) :
    ∃ a b, p.splitAtPayload k = some (a, b) ∧
      a.payload = p.payload.take k ∧
      b.payload = p.payload.drop k ∧
      (∃ s, p.tcpSeq = some s ∧ a.tcpSeq = some s ∧
        b.tcpSeq = some ((s + k) % 2 ^ 32)) ∧
      (∀ i, i < p.ipHeaderLen + p.transportHeaderLen → i ≠ 2 → i ≠ 3 →
        getB a.data i = getB p.data i) ∧
      (∀ i, i < p.ipHeaderLen + p.transportHeaderLen → i ≠ 2 → i ≠ 3 →
        (i < p.ipHeaderLen + 4 ∨ p.ipHeaderLen + 8 ≤ i) →
        getB b.data i = getB p.data i) ∧
      a.data.length = p.ipHeaderLen + p.transportHeaderLen + k ∧
      b.data.length = p.ipHeaderLen + p.transportHeaderLen + (L - k) ∧
      256 * getB a.data 2 + getB a.data 3 = a.data.length ∧
      256 * getB b.data 2 + getB b.data 3 = b.data.length := by
  have hHlt : p.ipHeaderLen + p.transportHeaderLen < p.data.length := by omega
  have hpay : p.payload = p.data.drop (p.ipHeaderLen + p.transportHeaderLen) := by
    unfold Packet.payload
    rw [if_pos hHlt]
  have hpaylen : p.payload.length = L := by
    rw [hpay, List.length_drop]
    omega
  have hguard : ¬ k ≥ p.payload.length := by omega
  have htakelen : (p.data.take (p.ipHeaderLen + p.transportHeaderLen)).length =
      p.ipHeaderLen + p.transportHeaderLen := by
    rw [List.length_take]
    omega
  have hgetHdr : ∀ (X : List Nat) (i : Nat),
      i < p.ipHeaderLen + p.transportHeaderLen →
      getB (p.data.take (p.ipHeaderLen + p.transportHeaderLen) ++ X) i =
        getB p.data i := by
    intro X i hi
    rw [getB_append_left _ _ _ (by omega), getB_take _ _ _ hi]
  have hbe32Hdr : ∀ (X : List Nat) (i : Nat),
      i + 4 ≤ p.ipHeaderLen + p.transportHeaderLen →
      be32 (p.data.take (p.ipHeaderLen + p.transportHeaderLen) ++ X) i =
        be32 p.data i := by
    intro X i hi
    unfold be32
    rw [hgetHdr X i (by omega), hgetHdr X (i + 1) (by omega),
      hgetHdr X (i + 2) (by omega), hgetHdr X (i + 3) (by omega)]
  have htcpSeqAny : ∀ q : Packet, q.protocol = .Tcp →
      q.ipHeaderLen + 4 + 4 ≤ q.data.length →
      q.tcpSeq = some (be32 q.data (q.ipHeaderLen + 4)) := by
    intro q hq hlen2
    unfold Packet.tcpSeq
    have hq2 : q.isTcp = true := by simp [Packet.isTcp, hq]
    rw [if_pos hq2, if_pos hlen2]
  have e16 : (2 : Nat) ^ 16 = 65536 := by norm_num
  rw [e16] at hsz
  have hFlen : (p.data.take (p.ipHeaderLen + p.transportHeaderLen) ++ p.payload.take k).length = p.ipHeaderLen + p.transportHeaderLen + k := by
    rw [List.length_append, htakelen, List.length_take, hpaylen]
    omega
  have hGlen : (p.data.take (p.ipHeaderLen + p.transportHeaderLen) ++ p.payload.drop k).length = p.ipHeaderLen + p.transportHeaderLen + (L - k) := by
    rw [List.length_append, htakelen, List.length_drop, hpaylen]
  have hWlen : (writeBE32 (p.data.take (p.ipHeaderLen + p.transportHeaderLen) ++ p.payload.drop k) (p.ipHeaderLen + 4) ((be32 p.data (p.ipHeaderLen + 4) + k) % 2 ^ 32)).length = p.ipHeaderLen + p.transportHeaderLen + (L - k) := by
    rw [length_writeBE32]
    exact hGlen
  have hUL : ∀ d : List Nat, Packet.updateLengths { p with data := d } =
      { p with data := (d.set 2 (d.length / 256 % 256)).set 3 (d.length % 256) } := by
    intro d
    simp only [Packet.updateLengths]
    split
    · rfl
    · next heq =>
      rw [hv] at heq
      exact IpVersion.noConfusion heq
  have hsetSeqRec : ∀ (d : List Nat) (v : Nat),
      Packet.setTcpSeq { p with data := d } v =
        { p with data := writeBE32 d (p.ipHeaderLen + 4) v } := by
    intro d v
    simp only [Packet.setTcpSeq, Packet.isTcp, hproto, if_true]
  have hpayloadRec : ∀ d : List Nat,
      p.ipHeaderLen + p.transportHeaderLen < d.length →
      Packet.payload { p with data := d } =
        d.drop (p.ipHeaderLen + p.transportHeaderLen) := by
    intro d hd
    simp only [Packet.payload]
    rw [if_pos hd]
  have htcpSeqRec : ∀ d : List Nat, p.ipHeaderLen + 4 + 4 ≤ d.length →
      Packet.tcpSeq { p with data := d } = some (be32 d (p.ipHeaderLen + 4)) := by
    intro d hd
    simp only [Packet.tcpSeq, Packet.isTcp, hproto, if_true]
    rw [if_pos hd]
  have hseq0 : p.tcpSeq = some (be32 p.data (p.ipHeaderLen + 4)) :=
    htcpSeqAny p hproto (by omega)
  have hseqG : Packet.tcpSeq { p with data := (p.data.take (p.ipHeaderLen + p.transportHeaderLen) ++ p.payload.drop k) } =
      some (be32 p.data (p.ipHeaderLen + 4)) := by
    rw [htcpSeqRec (p.data.take (p.ipHeaderLen + p.transportHeaderLen) ++ p.payload.drop k) (by rw [hGlen]; omega)]
    rw [hbe32Hdr (p.payload.drop k) (p.ipHeaderLen + 4) (by omega)]
  refine ⟨{ p with data := (((p.data.take (p.ipHeaderLen + p.transportHeaderLen) ++ p.payload.take k).set 2 ((p.data.take (p.ipHeaderLen + p.transportHeaderLen) ++ p.payload.take k).length / 256 % 256)).set 3 ((p.data.take (p.ipHeaderLen + p.transportHeaderLen) ++ p.payload.take k).length % 256)) }, { p with data := (((writeBE32 (p.data.take (p.ipHeaderLen + p.transportHeaderLen) ++ p.payload.drop k) (p.ipHeaderLen + 4) ((be32 p.data (p.ipHeaderLen + 4) + k) % 2 ^ 32)).set 2 ((writeBE32 (p.data.take (p.ipHeaderLen + p.transportHeaderLen) ++ p.payload.drop k) (p.ipHeaderLen + 4) ((be32 p.data (p.ipHeaderLen + 4) + k) % 2 ^ 32)).length / 256 % 256)).set 3 ((writeBE32 (p.data.take (p.ipHeaderLen + p.transportHeaderLen) ++ p.payload.drop k) (p.ipHeaderLen + 4) ((be32 p.data (p.ipHeaderLen + 4) + k) % 2 ^ 32)).length % 256)) },
    ?_, ?_, ?_, ?_, ?_, ?_, ?_, ?_, ?_, ?_⟩
  · simp only [Packet.splitAtPayload]
    rw [if_neg hguard, hseqG, ← hUL (p.data.take (p.ipHeaderLen + p.transportHeaderLen) ++ p.payload.take k), ← hUL (writeBE32 (p.data.take (p.ipHeaderLen + p.transportHeaderLen) ++ p.payload.drop k) (p.ipHeaderLen + 4) ((be32 p.data (p.ipHeaderLen + 4) + k) % 2 ^ 32)),
      ← hsetSeqRec (p.data.take (p.ipHeaderLen + p.transportHeaderLen) ++ p.payload.drop k) ((be32 p.data (p.ipHeaderLen + 4) + k) % 2 ^ 32)]
  · rw [hpayloadRec (((p.data.take (p.ipHeaderLen + p.transportHeaderLen) ++ p.payload.take k).set 2 ((p.data.take (p.ipHeaderLen + p.transportHeaderLen) ++ p.payload.take k).length / 256 % 256)).set 3 ((p.data.take (p.ipHeaderLen + p.transportHeaderLen) ++ p.payload.take k).length % 256))
      (by simp only [List.length_set]; rw [hFlen]; omega)]
    rw [drop_set_lt _ 3 _ (p.ipHeaderLen + p.transportHeaderLen) (by omega),
      drop_set_lt _ 2 _ (p.ipHeaderLen + p.transportHeaderLen) (by omega),
      List.drop_left' htakelen]
  · rw [hpayloadRec (((writeBE32 (p.data.take (p.ipHeaderLen + p.transportHeaderLen) ++ p.payload.drop k) (p.ipHeaderLen + 4) ((be32 p.data (p.ipHeaderLen + 4) + k) % 2 ^ 32)).set 2 ((writeBE32 (p.data.take (p.ipHeaderLen + p.transportHeaderLen) ++ p.payload.drop k) (p.ipHeaderLen + 4) ((be32 p.data (p.ipHeaderLen + 4) + k) % 2 ^ 32)).length / 256 % 256)).set 3 ((writeBE32 (p.data.take (p.ipHeaderLen + p.transportHeaderLen) ++ p.payload.drop k) (p.ipHeaderLen + 4) ((be32 p.data (p.ipHeaderLen + 4) + k) % 2 ^ 32)).length % 256))
      (by simp only [List.length_set]; rw [hWlen]; omega)]
    rw [drop_set_lt _ 3 _ (p.ipHeaderLen + p.transportHeaderLen) (by omega),
      drop_set_lt _ 2 _ (p.ipHeaderLen + p.transportHeaderLen) (by omega),
      drop_writeBE32_lt _ _ _ _ (by omega),
      List.drop_left' htakelen]
  · refine ⟨be32 p.data (p.ipHeaderLen + 4), hseq0, ?_, ?_⟩
    · rw [htcpSeqRec (((p.data.take (p.ipHeaderLen + p.transportHeaderLen) ++ p.payload.take k).set 2 ((p.data.take (p.ipHeaderLen + p.transportHeaderLen) ++ p.payload.take k).length / 256 % 256)).set 3 ((p.data.take (p.ipHeaderLen + p.transportHeaderLen) ++ p.payload.take k).length % 256))
        (by simp only [List.length_set]; rw [hFlen]; omega)]
      rw [be32_set_high _ _ _ _ (by omega)]
      rw [hbe32Hdr (p.payload.take k) (p.ipHeaderLen + 4) (by omega)]
    · rw [htcpSeqRec (((writeBE32 (p.data.take (p.ipHeaderLen + p.transportHeaderLen) ++ p.payload.drop k) (p.ipHeaderLen + 4) ((be32 p.data (p.ipHeaderLen + 4) + k) % 2 ^ 32)).set 2 ((writeBE32 (p.data.take (p.ipHeaderLen + p.transportHeaderLen) ++ p.payload.drop k) (p.ipHeaderLen + 4) ((be32 p.data (p.ipHeaderLen + 4) + k) % 2 ^ 32)).length / 256 % 256)).set 3 ((writeBE32 (p.data.take (p.ipHeaderLen + p.transportHeaderLen) ++ p.payload.drop k) (p.ipHeaderLen + 4) ((be32 p.data (p.ipHeaderLen + 4) + k) % 2 ^ 32)).length % 256))
        (by simp only [List.length_set]; rw [hWlen]; omega)]
      rw [be32_set_high _ _ _ _ (by omega)]
      rw [be32_writeBE32 _ _ _ (Nat.mod_lt _ (by norm_num)) (by rw [hGlen]; omega)]
  · intro i hi h2 h3
    rw [getB_set_ne _ 3 i _ (by omega), getB_set_ne _ 2 i _ (by omega),
      hgetHdr (p.payload.take k) i hi]
  · intro i hi h2 h3 hrange
    rw [getB_set_ne _ 3 i _ (by omega), getB_set_ne _ 2 i _ (by omega),
      getB_writeBE32_ne _ _ _ _ (by omega),
      hgetHdr (p.payload.drop k) i hi]
  · simp only [List.length_set]
    exact hFlen
  · simp only [List.length_set]
    exact hWlen
  · have h3v : getB (((p.data.take (p.ipHeaderLen + p.transportHeaderLen) ++ p.payload.take k).set 2 ((p.data.take (p.ipHeaderLen + p.transportHeaderLen) ++ p.payload.take k).length / 256 % 256)).set 3 ((p.data.take (p.ipHeaderLen + p.transportHeaderLen) ++ p.payload.take k).length % 256)) 3 = (p.data.take (p.ipHeaderLen + p.transportHeaderLen) ++ p.payload.take k).length % 256 :=
      getB_set_self _ _ _ (by rw [List.length_set, hFlen]; omega)
    have h2v : getB (((p.data.take (p.ipHeaderLen + p.transportHeaderLen) ++ p.payload.take k).set 2 ((p.data.take (p.ipHeaderLen + p.transportHeaderLen) ++ p.payload.take k).length / 256 % 256)).set 3 ((p.data.take (p.ipHeaderLen + p.transportHeaderLen) ++ p.payload.take k).length % 256)) 2 = (p.data.take (p.ipHeaderLen + p.transportHeaderLen) ++ p.payload.take k).length / 256 % 256 := by
      rw [getB_set_ne _ 3 2 _ (by omega)]
      exact getB_set_self _ _ _ (by rw [hFlen]; omega)
    rw [h2v, h3v]
    simp only [List.length_set]
    rw [hFlen]
    omega
  · have h3v : getB (((writeBE32 (p.data.take (p.ipHeaderLen + p.transportHeaderLen) ++ p.payload.drop k) (p.ipHeaderLen + 4) ((be32 p.data (p.ipHeaderLen + 4) + k) % 2 ^ 32)).set 2 ((writeBE32 (p.data.take (p.ipHeaderLen + p.transportHeaderLen) ++ p.payload.drop k) (p.ipHeaderLen + 4) ((be32 p.data (p.ipHeaderLen + 4) + k) % 2 ^ 32)).length / 256 % 256)).set 3 ((writeBE32 (p.data.take (p.ipHeaderLen + p.transportHeaderLen) ++ p.payload.drop k) (p.ipHeaderLen + 4) ((be32 p.data (p.ipHeaderLen + 4) + k) % 2 ^ 32)).length % 256)) 3 = (writeBE32 (p.data.take (p.ipHeaderLen + p.transportHeaderLen) ++ p.payload.drop k) (p.ipHeaderLen + 4) ((be32 p.data (p.ipHeaderLen + 4) + k) % 2 ^ 32)).length % 256 :=
      getB_set_self _ _ _ (by rw [List.length_set, hWlen]; omega)
    have h2v : getB (((writeBE32 (p.data.take (p.ipHeaderLen + p.transportHeaderLen) ++ p.payload.drop k) (p.ipHeaderLen + 4) ((be32 p.data (p.ipHeaderLen + 4) + k) % 2 ^ 32)).set 2 ((writeBE32 (p.data.take (p.ipHeaderLen + p.transportHeaderLen) ++ p.payload.drop k) (p.ipHeaderLen + 4) ((be32 p.data (p.ipHeaderLen + 4) + k) % 2 ^ 32)).length / 256 % 256)).set 3 ((writeBE32 (p.data.take (p.ipHeaderLen + p.transportHeaderLen) ++ p.payload.drop k) (p.ipHeaderLen + 4) ((be32 p.data (p.ipHeaderLen + 4) + k) % 2 ^ 32)).length % 256)) 2 = (writeBE32 (p.data.take (p.ipHeaderLen + p.transportHeaderLen) ++ p.payload.drop k) (p.ipHeaderLen + 4) ((be32 p.data (p.ipHeaderLen + 4) + k) % 2 ^ 32)).length / 256 % 256 := by
      rw [getB_set_ne _ 3 2 _ (by omega)]
      exact getB_set_self _ _ _ (by rw [hWlen]; omega)
    rw [h2v, h3v]
    simp only [List.length_set]
    rw [hWlen]
    omega

/-- C1 witness: the theorem applied to the concrete TCP packet
(`L = 18`, `k = 2`). -/
theorem C1_split_at_payload_correct_witness :
    ∃ a b, tcpTestPacket.splitAtPayload 2 = some (a, b) ∧
      a.payload = tcpTestPacket.payload.take 2 ∧
      b.payload = tcpTestPacket.payload.drop 2 ∧
      (∃ s, tcpTestPacket.tcpSeq = some s ∧ a.tcpSeq = some s ∧
        b.tcpSeq = some ((s + 2) % 2 ^ 32)) ∧
      (∀ i, i < tcpTestPacket.ipHeaderLen + tcpTestPacket.transportHeaderLen →
        i ≠ 2 → i ≠ 3 → getB a.data i = getB tcpTestPacket.data i) ∧
      (∀ i, i < tcpTestPacket.ipHeaderLen + tcpTestPacket.transportHeaderLen →
        i ≠ 2 → i ≠ 3 →
        (i < tcpTestPacket.ipHeaderLen + 4 ∨ tcpTestPacket.ipHeaderLen + 8 ≤ i) →
        getB b.data i = getB tcpTestPacket.data i) ∧
      a.data.length = tcpTestPacket.ipHeaderLen + tcpTestPacket.transportHeaderLen + 2 ∧
      b.data.length =
        tcpTestPacket.ipHeaderLen + tcpTestPacket.transportHeaderLen + (18 - 2) ∧
      256 * getB a.data 2 + getB a.data 3 = a.data.length ∧
      256 * getB b.data 2 + getB b.data 3 = b.data.length :=
  C1_split_at_payload_correct tcpTestPacket 18 2 (by decide) (by decide) (by decide)
    (by decide) (by decide) (by decide) (by decide) (by decide)
